import Mathlib

/-!
# kubernetes-security-benchmark: node configuration files (CIS 2.2.x)

A shallow embedding of `pkg/cis/node/configuration_files.go`.

The Go file registers ten Ginkgo items `[2.2.1]` .. `[2.2.10]` in nested
containers.  Running one item means: run the `BeforeEach` hooks of the enclosing
containers, outermost first, and then the item body; a failing assertion
(`Expect`, Ginkgo `Fail`) or a `Skip` unwinds the running hook or body at once
and decides the outcome of the item.  Variables declared in a container closure
(`kubeconfigFilePath`, `clientCAFilePath`, `kubeletConfigFilePath`) are created
once, when the tree is built, and are shared by every run of the items of that
container; they are modelled as explicit state (`Vars`).

The host (process table, file system, user database) is an explicit parameter
(`Host`).  Every observable action of an item is recorded in a trace of `Event`s
so that statements such as "no predicate is evaluated" can be stated.
-/

namespace KSB

/-! ## Host data -/

/-- Go `error` values that the code distinguishes: the not-exist error recognised
by `os.IsNotExist`, the unknown-principal error of name resolution, and any
other error. -/
inductive GoError where
  | notExist
  | unknownPrincipal (name : String)
  | other (msg : String)
deriving DecidableEq, Repr

/-- Go `os.IsNotExist(err)`; a nil error is not a not-exist error. -/
def osIsNotExist : Option GoError → Bool
  | some GoError.notExist => true
  | _ => false

/-- Handle of a running process: name, argument vector and process id. -/
structure ProcessHandle where
  name : String
  args : List String
  pid : Nat
deriving DecidableEq, Repr

/-- Result of looking a process up by name. -/
inductive Located where
  | found (p : ProcessHandle)
  | notFound
  | failed (e : GoError)
deriving DecidableEq, Repr

/-- Go `os.FileInfo`, restricted to what the checks read.  `mode` is the
`os.FileMode` value (a 32 bit word: type bits above, permission bits below). -/
structure FileInfo where
  isDir : Bool
  mode : Nat
  uid : Nat
  gid : Nat
deriving DecidableEq, Repr

/-- One call that `filepath.Walk` makes to its callback: `(path, info, nil)` for
an entry it could read, `(path, info, err)` with a non-nil `err` otherwise (then
`info` may be nil). -/
inductive WalkEntry where
  | visited (path : String) (info : FileInfo)
  | errored (path : String) (info : Option FileInfo) (err : GoError)
deriving DecidableEq, Repr

/-- The host as one item run observes it.

* `locate` is the process table lookup.
* `FilePathFromFlag` is `util.FilePathFromFlag(process, flag, base)`; the
  function is not part of the sources at hand, so its result
  `(path, exists, err)` is taken from the host.
* `stat` is `os.Stat`.
* `walk root` is the sequence of calls `filepath.Walk root` makes to a callback
  that returns `nil` every time (as the two callbacks in the source do).
* `lookupUser`, `lookupGroup` resolve a user or group name to its numeric id. -/
structure Host where
  locate : String → Located
  FilePathFromFlag : Option ProcessHandle → String → String → String × Bool × Option GoError
  stat : String → Except GoError FileInfo
  walk : String → List WalkEntry
  lookupUser : String → Option Nat
  lookupGroup : String → Option Nat

/-! ## Outcomes, events, state -/

/-- What a reported failure says. -/
inductive Failure where
  /-- `Expect(err).NotTo(HaveOccurred())` on a non-nil error. -/
  | unexpectedError (e : GoError)
  /-- A matcher could not be evaluated on `path`. -/
  | matcherError (path : String) (e : GoError)
  /-- Permission mismatch on `path`: actual and threshold permission bits. -/
  | permissions (path : String) (actual threshold : Nat)
  /-- Ownership mismatch on `path`: actual numeric uid and gid. -/
  | ownership (path : String) (uid gid : Nat)
  /-- Ginkgo `Fail(message)`. -/
  | message (msg : String)
deriving DecidableEq, Repr

/-- The file a failure names, if it is a failure of a file predicate. -/
def Failure.namedFiles : Failure → List String
  | .matcherError p _ => [p]
  | .permissions p _ _ => [p]
  | .ownership p _ _ => [p]
  | .unexpectedError _ => []
  | .message _ => []

/-- How a hook or body is cut short: Ginkgo `Skip(reason)` or a failure. -/
inductive Abort where
  | skip (reason : String)
  | fail (f : Failure)
deriving DecidableEq, Repr

/-- Outcome of one item. -/
inductive Outcome where
  | pass
  | fail (f : Failure)
  | skip (reason : String)
deriving DecidableEq, Repr

/-- Observable actions of an item run. -/
inductive Event where
  /-- Process table lookup by name. -/
  | locate (name : String)
  /-- Call of `util.FilePathFromFlag`. -/
  | resolveFlag (proc : Option ProcessHandle) (flag base : String)
  /-- Call of `os.Stat` by a hook. -/
  | stat (path : String)
  /-- Call of `filepath.Walk`. -/
  | walk (root : String)
  /-- The walk callback reads `info.IsDir()` of the entry at `path`. -/
  | isDir (path : String)
  /-- The permission predicate is evaluated on `path`. -/
  | havePermissions (path : String)
  /-- The ownership predicate is evaluated on `path`. -/
  | beOwnedBy (path : String)
deriving DecidableEq, Repr

/-- The variables that live in the container closures of `ConfigurationFiles`
and in the three `framework` objects; they outlive a single item run.

* `kubeletProcess`, `kubeProxyProcess`, `kubelet2Process`: the `Process` field
  of the objects built at lines 32, 92 and 119;
* `kubeconfigFilePath` (line 36), `proxyKubeconfigFilePath` (the variable named
  `kubeconfigFilePath` at line 96), `clientCAFilePath` (line 123),
  `kubeletConfigFilePath` (line 144). -/
structure Vars where
  kubeletProcess : Option ProcessHandle
  kubeconfigFilePath : String
  kubeProxyProcess : Option ProcessHandle
  proxyKubeconfigFilePath : String
  kubelet2Process : Option ProcessHandle
  clientCAFilePath : String
  kubeletConfigFilePath : String
deriving DecidableEq, Repr

/-- The variables as the tree construction leaves them (Go zero values). -/
def Vars.initial : Vars :=
  { kubeletProcess := none, kubeconfigFilePath := "",
    kubeProxyProcess := none, proxyKubeconfigFilePath := "",
    kubelet2Process := none, clientCAFilePath := "",
    kubeletConfigFilePath := "" }

/-- State threaded through a run: the shared variables and the trace so far. -/
structure St where
  vars : Vars
  trace : List Event
deriving DecidableEq, Repr

/-- A piece of hook or body code: it transforms the state and either completes
with a value or is cut short by an `Abort`; the state reached is kept in both
cases. -/
def Node (α : Type) : Type := St → Except Abort α × St

/-- Sequencing of `Node`s: an abort skips the rest. -/
def Node.bind {α β : Type} (x : Node α) (f : α → Node β) : Node β :=
  fun s =>
    match x s with
    | (Except.ok a, s1) => f a s1
    | (Except.error e, s1) => (Except.error e, s1)

/-- Completing with a value. -/
def Node.pure {α : Type} (a : α) : Node α := fun s => (Except.ok a, s)

instance : Monad Node where
  pure := Node.pure
  bind := Node.bind

/-- Record an event. -/
def emit (ev : Event) : Node Unit :=
  fun s => (Except.ok (), { s with trace := s.trace ++ [ev] })

/-- Read the shared variables. -/
def getVars : Node Vars := fun s => (Except.ok s.vars, s)

/-- Assign to the shared variables. -/
def setVars (f : Vars → Vars) : Node Unit :=
  fun s => (Except.ok (), { s with vars := f s.vars })

/-- Ginkgo `Skip(reason)`. -/
def Skip {α : Type} (reason : String) : Node α :=
  fun s => (Except.error (Abort.skip reason), s)

/-- Ginkgo `Fail`, reached through a failed Gomega assertion. -/
def Fail {α : Type} (f : Failure) : Node α :=
  fun s => (Except.error (Abort.fail f), s)

/-- Gomega `Expect(err).NotTo(HaveOccurred())`. -/
def ExpectNotToHaveOccurred (err : Option GoError) : Node Unit :=
  match err with
  | none => Node.pure ()
  | some e => Fail (Failure.unexpectedError e)

/-! ## File predicates -/

/-- Modelled from the spec: the relational operators of a permission predicate,
`<=`, `==`, `<`, `>=`, `>`.  The matcher package is not part of the sources at
hand. -/
inductive Comparator where
  | le
  | eq
  | lt
  | ge
  | gt
deriving DecidableEq, Repr

/-- Modelled from the spec: reading the operator from the string the caller
passes (the matcher package is not part of the sources at hand). -/
def Comparator.ofString (s : String) : Option Comparator :=
  if s = "<=" then some Comparator.le
  else if s = "==" then some Comparator.eq
  else if s = "<" then some Comparator.lt
  else if s = ">=" then some Comparator.ge
  else if s = ">" then some Comparator.gt
  else none

/-- Modelled from the spec: applying the relational operator between the actual
and the threshold value, both as unsigned integers (the matcher package is not
part of the sources at hand). -/
def Comparator.eval : Comparator → Nat → Nat → Bool
  | .le, a, t => decide (a ≤ t)
  | .eq, a, t => decide (a = t)
  | .lt, a, t => decide (a < t)
  | .ge, a, t => decide (t ≤ a)
  | .gt, a, t => decide (t < a)

/-- Go `FileMode.Perm`: the permission portion of a mode, `m & 0777`. -/
def Perm (m : Nat) : Nat := m &&& 0o777

/-- Modelled from the spec: `CheckPermissions(path, operator, thresholdBits)`,
the evaluation behind the matcher `HavePermissionsNumerically`, which is not part
of the sources at hand.  It reads the mode bits of the entry (permission portion
only), applies the operator between actual and threshold, both in the space
0..0777, and returns pass or fail together with the actual value; an error
reading the entry is returned as an error. -/
def CheckPermissions (host : Host) (path : String) (operator : Comparator)
    (thresholdBits : Nat) : Except GoError (Bool × Nat) :=
  match host.stat path with
  | Except.error e => Except.error e
  | Except.ok fi => Except.ok (operator.eval (Perm fi.mode) (Perm thresholdBits), Perm fi.mode)

/-- Modelled from the spec: `CheckOwnership(path, expectedUser, expectedGroup)`,
the evaluation behind the matcher `BeOwnedBy`, which is not part of the sources
at hand.  It resolves the expected names to numeric ids (an unknown name is a
distinct error), reads the actual uid and gid of the entry and compares
numerically; the actual ids are returned for the mismatch report. -/
def CheckOwnership (host : Host) (path : String) (expectedUser expectedGroup : String) :
    Except GoError (Bool × Nat × Nat) :=
  match host.lookupUser expectedUser with
  | none => Except.error (GoError.unknownPrincipal expectedUser)
  | some uid =>
    match host.lookupGroup expectedGroup with
    | none => Except.error (GoError.unknownPrincipal expectedGroup)
    | some gid =>
      match host.stat path with
      | Except.error e => Except.error e
      | Except.ok fi => Except.ok (decide (fi.uid = uid ∧ fi.gid = gid), fi.uid, fi.gid)

/-- Modelled from the spec: the matcher `HavePermissionsNumerically(comparator,
compareTo)` (package `matchers`, not part of the sources at hand) under the
assertion `Expect(path).To(...)`: the permission predicate is evaluated on
`path`; a mismatch, reported with the actual and the threshold bits, or a matcher
error fails the running node. -/
def ExpectToHavePermissionsNumerically (host : Host) (path : String) (comparator : String)
    (compareTo : Nat) : Node Unit := do
  emit (Event.havePermissions path)
  match Comparator.ofString comparator with
  | none => Fail (Failure.matcherError path (GoError.other "unknown comparator"))
  | some op =>
    match CheckPermissions host path op compareTo with
    | Except.error e => Fail (Failure.matcherError path e)
    | Except.ok (true, _) => pure ()
    | Except.ok (false, actual) => Fail (Failure.permissions path actual (Perm compareTo))

/-- Modelled from the spec: the matcher `BeOwnedBy(user, group)` (package
`matchers`, not part of the sources at hand) under the assertion
`Expect(path).To(...)`: the ownership predicate is evaluated on `path`; a
mismatch, reported with the actual numeric ids, or a matcher error fails the
running node. -/
def ExpectToBeOwnedBy (host : Host) (path : String) (user group : String) : Node Unit := do
  emit (Event.beOwnedBy path)
  match CheckOwnership host path user group with
  | Except.error e => Fail (Failure.matcherError path e)
  | Except.ok (true, _, _) => pure ()
  | Except.ok (false, uid, gid) => Fail (Failure.ownership path uid gid)

/-! ## The process framework -/

/-- Modelled from the spec: the missing-process policy
(`framework.MissingProcessHandlerFunc`, not part of the sources at hand): a
function value supplied by the caller that decides, given the message that a
process was not found, whether the item fails or is skipped. -/
abbrev MissingProcessHandlerFunc : Type := String → Abort

/-- Modelled from the spec: the skip-on-absence policy (Ginkgo `Skip` passed as
the handler): skip with the message as reason. -/
def skipOnAbsence : MissingProcessHandlerFunc := fun msg => Abort.skip msg

/-- Modelled from the spec: the fail-hard policy (Ginkgo `Fail` passed as the
handler): fail with the message. -/
def failHard : MissingProcessHandlerFunc := fun msg => Abort.fail (Failure.message msg)

/-- Modelled from the spec: the message handed to the missing-process policy. -/
def processNotFound : String := "process not found"

/-- Which of the three `framework` objects of `ConfigurationFiles` a hook
belongs to; it selects the `Process` field in `Vars`. -/
inductive FrameworkSlot where
  | kubelet
  | kubeProxy
  | kubelet2
deriving DecidableEq, Repr

/-- The `Process` field of a framework object. -/
def FrameworkSlot.Process (slot : FrameworkSlot) (v : Vars) : Option ProcessHandle :=
  match slot with
  | .kubelet => v.kubeletProcess
  | .kubeProxy => v.kubeProxyProcess
  | .kubelet2 => v.kubelet2Process

/-- Assignment to the `Process` field of a framework object. -/
def FrameworkSlot.setProcess (slot : FrameworkSlot) (p : Option ProcessHandle) (v : Vars) : Vars :=
  match slot with
  | .kubelet => { v with kubeletProcess := p }
  | .kubeProxy => { v with kubeProxyProcess := p }
  | .kubelet2 => { v with kubelet2Process := p }

/-- Modelled from the spec: the `BeforeEach` of the object
`framework.New(processName, missingProcessFunc)` (package `framework` is not
part of the sources at hand).  It locates the process by name; a found process
becomes the `Process` field; when the process is not found the caller's policy
decides between fail and skip; a lookup error is a hard error. -/
def frameworkBeforeEach (slot : FrameworkSlot) (processName : String)
    (missingProcessFunc : MissingProcessHandlerFunc) (host : Host) : Node Unit := do
  emit (Event.locate processName)
  match host.locate processName with
  | Located.found p => setVars (slot.setProcess (some p))
  | Located.notFound =>
    match missingProcessFunc processNotFound with
    | Abort.skip reason => Skip reason
    | Abort.fail f => Fail f
  | Located.failed e => Fail (Failure.unexpectedError e)

/-! ## Hooks of `ConfigurationFiles` -/

/-- The `BeforeEach` at lines 38-45 (kubelet `--kubeconfig`). -/
def kubeletKubeconfigBeforeEach (host : Host) : Node Unit := do
  let v ← getVars
  emit (Event.resolveFlag v.kubeletProcess "kubeconfig" "")
  let (kubeConfigFile, fileExists, err) := host.FilePathFromFlag v.kubeletProcess "kubeconfig" ""
  ExpectNotToHaveOccurred err
  if !fileExists then
    Skip (kubeConfigFile ++ " does not exist")
  setVars (fun w => { w with kubeconfigFilePath := kubeConfigFile })

/-- The constant `kubeletServiceFileDir` (line 57). -/
def kubeletServiceFileDir : String := "/etc/systemd/system/kubelet.service.d"

/-- The `BeforeEach` at lines 59-65 (kubelet service directory). -/
def serviceFileDirBeforeEach (host : Host) : Node Unit := do
  emit (Event.stat kubeletServiceFileDir)
  let err : Option GoError :=
    match host.stat kubeletServiceFileDir with
    | Except.ok _ => none
    | Except.error e => some e
  if osIsNotExist err then
    Skip (kubeletServiceFileDir ++ " does not exist")
  ExpectNotToHaveOccurred err

/-- The `BeforeEach` at lines 99-106 (kube-proxy `--kubeconfig`); `cwd` is the
working directory read once when the tree is built (line 97). -/
def proxyKubeconfigBeforeEach (cwd : String) (host : Host) : Node Unit := do
  let v ← getVars
  emit (Event.resolveFlag v.kubeProxyProcess "kubeconfig" cwd)
  let (kubeConfigFile, fileExists, err) := host.FilePathFromFlag v.kubeProxyProcess "kubeconfig" cwd
  ExpectNotToHaveOccurred err
  if !fileExists then
    Skip (kubeConfigFile ++ " does not exist")
  setVars (fun w => { w with proxyKubeconfigFilePath := kubeConfigFile })

/-- The `BeforeEach` at lines 125-132 (kubelet `--client-ca-file`). -/
def clientCAFileBeforeEach (host : Host) : Node Unit := do
  let v ← getVars
  emit (Event.resolveFlag v.kubelet2Process "client-ca-file" "")
  let (clientCAFile, fileExists, err) := host.FilePathFromFlag v.kubelet2Process "client-ca-file" ""
  ExpectNotToHaveOccurred err
  if !fileExists then
    Skip (clientCAFile ++ " does not exist")
  setVars (fun w => { w with clientCAFilePath := clientCAFile })

/-- The `BeforeEach` at lines 146-156 (kubelet `--config`). -/
def kubeletConfigBeforeEach (host : Host) : Node Unit := do
  let v ← getVars
  emit (Event.resolveFlag v.kubelet2Process "config" "")
  let (kubeletConfigFile, fileExists, err) := host.FilePathFromFlag v.kubelet2Process "config" ""
  ExpectNotToHaveOccurred err
  if kubeletConfigFile = "" then
    Skip "--config is not set"
  if !fileExists then
    Skip (kubeletConfigFile ++ " does not exist")
  setVars (fun w => { w with kubeletConfigFilePath := kubeletConfigFile })

/-! ## The directory walk -/

/-- The calls of `filepath.Walk` to its callback `walkFn(path, info, err)`, in
order; a non-nil error returned by the callback stops the walk and is the
result of the walk. -/
def filepathWalkCalls (walkFn : String → Option FileInfo → Option GoError → Node (Option GoError)) :
    List WalkEntry → Node (Option GoError)
  | [] => pure none
  | WalkEntry.visited path info :: rest => do
    match ← walkFn path (some info) none with
    | some e => pure (some e)
    | none => filepathWalkCalls walkFn rest
  | WalkEntry.errored path info err :: rest => do
    match ← walkFn path info (some err) with
    | some e => pure (some e)
    | none => filepathWalkCalls walkFn rest

/-- Go `filepath.Walk(root, walkFn)` on the host. -/
def filepathWalk (host : Host) (root : String)
    (walkFn : String → Option FileInfo → Option GoError → Node (Option GoError)) :
    Node (Option GoError) := do
  emit (Event.walk root)
  filepathWalkCalls walkFn (host.walk root)

/-- Reading `info.IsDir()` in a walk callback; on a nil `info` the read panics,
which Ginkgo reports as a failure of the item. -/
def infoIsDir (path : String) (info : Option FileInfo) : Node Bool := do
  emit (Event.isDir path)
  match info with
  | none => Fail (Failure.message "nil pointer dereference")
  | some fi => pure fi.isDir

/-- The walk callback of item 2.2.3 (lines 68-74). -/
def walkFnPermissions (host : Host) (path : String) (info : Option FileInfo)
    (err : Option GoError) : Node (Option GoError) := do
  ExpectNotToHaveOccurred err
  if !(← infoIsDir path info) then
    ExpectToHavePermissionsNumerically host path "<=" 0o644
  return none

/-- The walk callback of item 2.2.4 (lines 79-85). -/
def walkFnOwnership (host : Host) (path : String) (info : Option FileInfo)
    (err : Option GoError) : Node (Option GoError) := do
  ExpectNotToHaveOccurred err
  if !(← infoIsDir path info) then
    ExpectToBeOwnedBy host path "root" "root"
  return none

/-! ## The item tree -/

/-- The ten items registered by `ConfigurationFiles`. -/
inductive Item where
  | i2_2_1
  | i2_2_2
  | i2_2_3
  | i2_2_4
  | i2_2_5
  | i2_2_6
  | i2_2_7
  | i2_2_8
  | i2_2_9
  | i2_2_10
deriving DecidableEq, Repr

/-- The body of each item (the function passed to `It`). -/
def itemBody (host : Host) : Item → Node Unit
  | .i2_2_1 => do
    ExpectToHavePermissionsNumerically host (← getVars).kubeconfigFilePath "<=" 0o644
  | .i2_2_2 => do
    ExpectToBeOwnedBy host (← getVars).kubeconfigFilePath "root" "root"
  | .i2_2_3 => do
    let err ← filepathWalk host kubeletServiceFileDir (walkFnPermissions host)
    ExpectNotToHaveOccurred err
  | .i2_2_4 => do
    let err ← filepathWalk host kubeletServiceFileDir (walkFnOwnership host)
    ExpectNotToHaveOccurred err
  | .i2_2_5 => do
    ExpectToHavePermissionsNumerically host (← getVars).proxyKubeconfigFilePath "<=" 0o644
  | .i2_2_6 => do
    ExpectToBeOwnedBy host (← getVars).proxyKubeconfigFilePath "root" "root"
  | .i2_2_7 => do
    ExpectToHavePermissionsNumerically host (← getVars).clientCAFilePath "<=" 0o644
  | .i2_2_8 => do
    ExpectToBeOwnedBy host (← getVars).clientCAFilePath "root" "root"
  | .i2_2_9 => do
    ExpectToBeOwnedBy host (← getVars).kubeletConfigFilePath "root" "root"
  | .i2_2_10 => do
    ExpectToHavePermissionsNumerically host (← getVars).kubeletConfigFilePath "<=" 0o644

/-- One item of the tree: the `BeforeEach` hooks of its enclosing containers,
outermost first, and its body. -/
structure Spec where
  befores : List (Host → Node Unit)
  body : Host → Node Unit

/-- The tree built by `ConfigurationFiles(missingProcessFunc)`: for each item,
its hooks and body.  `cwd` is the result of `os.Getwd()` at line 97. -/
def ConfigurationFiles (missingProcessFunc : MissingProcessHandlerFunc) (cwd : String) :
    Item → Spec
  | .i2_2_1 =>
    { befores := [frameworkBeforeEach .kubelet "kubelet" missingProcessFunc,
                  kubeletKubeconfigBeforeEach],
      body := fun host => itemBody host .i2_2_1 }
  | .i2_2_2 =>
    { befores := [frameworkBeforeEach .kubelet "kubelet" missingProcessFunc,
                  kubeletKubeconfigBeforeEach],
      body := fun host => itemBody host .i2_2_2 }
  | .i2_2_3 =>
    { befores := [frameworkBeforeEach .kubelet "kubelet" missingProcessFunc,
                  serviceFileDirBeforeEach],
      body := fun host => itemBody host .i2_2_3 }
  | .i2_2_4 =>
    { befores := [frameworkBeforeEach .kubelet "kubelet" missingProcessFunc,
                  serviceFileDirBeforeEach],
      body := fun host => itemBody host .i2_2_4 }
  | .i2_2_5 =>
    { befores := [frameworkBeforeEach .kubeProxy "kube-proxy" missingProcessFunc,
                  proxyKubeconfigBeforeEach cwd],
      body := fun host => itemBody host .i2_2_5 }
  | .i2_2_6 =>
    { befores := [frameworkBeforeEach .kubeProxy "kube-proxy" missingProcessFunc,
                  proxyKubeconfigBeforeEach cwd],
      body := fun host => itemBody host .i2_2_6 }
  | .i2_2_7 =>
    { befores := [frameworkBeforeEach .kubelet2 "kubelet" missingProcessFunc,
                  clientCAFileBeforeEach],
      body := fun host => itemBody host .i2_2_7 }
  | .i2_2_8 =>
    { befores := [frameworkBeforeEach .kubelet2 "kubelet" missingProcessFunc,
                  clientCAFileBeforeEach],
      body := fun host => itemBody host .i2_2_8 }
  | .i2_2_9 =>
    { befores := [frameworkBeforeEach .kubelet2 "kubelet" missingProcessFunc,
                  kubeletConfigBeforeEach],
      body := fun host => itemBody host .i2_2_9 }
  | .i2_2_10 =>
    { befores := [frameworkBeforeEach .kubelet2 "kubelet" missingProcessFunc,
                  kubeletConfigBeforeEach],
      body := fun host => itemBody host .i2_2_10 }

/-! ## Running items -/

/-- Run hooks in order; the first abort ends the sequence. -/
def runNodes (host : Host) : List (Host → Node Unit) → Node Unit
  | [] => pure ()
  | n :: ns => do
    n host
    runNodes host ns

/-- What one item run reports, and the shared variables it leaves behind. -/
structure Report where
  outcome : Outcome
  trace : List Event
  vars : Vars
deriving DecidableEq, Repr

/-- Run one item on a host, starting from the given shared variables: hooks
first, then the body unless a hook was cut short. -/
def Spec.run (s : Spec) (host : Host) (vars : Vars) : Report :=
  match (do runNodes host s.befores; s.body host : Node Unit) { vars := vars, trace := [] } with
  | (Except.ok _, st) => { outcome := Outcome.pass, trace := st.trace, vars := st.vars }
  | (Except.error (Abort.skip reason), st) =>
    { outcome := Outcome.skip reason, trace := st.trace, vars := st.vars }
  | (Except.error (Abort.fail f), st) =>
    { outcome := Outcome.fail f, trace := st.trace, vars := st.vars }

/-- Run one item of `ConfigurationFiles`. -/
def runItem (missingProcessFunc : MissingProcessHandlerFunc) (cwd : String) (host : Host)
    (vars : Vars) (i : Item) : Report :=
  (ConfigurationFiles missingProcessFunc cwd i).run host vars

/-- Run a sequence of items, each on its own host state, threading the shared
variables from one run to the next; the reports are returned in order. -/
def runSequence (missingProcessFunc : MissingProcessHandlerFunc) (cwd : String) :
    List (Item × Host) → Vars → List Report
  | [], _ => []
  | (i, host) :: rest, vars =>
    let r := runItem missingProcessFunc cwd host vars i
    r :: runSequence missingProcessFunc cwd rest r.vars

/-! ## Vocabulary of the properties -/

/-- The process an item depends on: kube-proxy for 2.2.5 and 2.2.6, kubelet for
the other eight. -/
def Item.processName : Item → String
  | .i2_2_5 => "kube-proxy"
  | .i2_2_6 => "kube-proxy"
  | _ => "kubelet"

/-- The flag a flag-driven item resolves and the base directory it passes;
`none` for the two items of the service directory. -/
def Item.flagQuery (cwd : String) : Item → Option (String × String)
  | .i2_2_1 => some ("kubeconfig", "")
  | .i2_2_2 => some ("kubeconfig", "")
  | .i2_2_3 => none
  | .i2_2_4 => none
  | .i2_2_5 => some ("kubeconfig", cwd)
  | .i2_2_6 => some ("kubeconfig", cwd)
  | .i2_2_7 => some ("client-ca-file", "")
  | .i2_2_8 => some ("client-ca-file", "")
  | .i2_2_9 => some ("config", "")
  | .i2_2_10 => some ("config", "")

/-- The files an outcome names: those of its failure, none for pass and skip. -/
def Outcome.namedFiles : Outcome → List String
  | .fail f => f.namedFiles
  | .pass => []
  | .skip _ => []

/-- The outcome a missing-process policy decides. -/
def Abort.toOutcome : Abort → Outcome
  | .skip reason => Outcome.skip reason
  | .fail f => Outcome.fail f

/-- The file at `path` can be read and its permission bits are at most 0644. -/
def permissionsOK (host : Host) (path : String) : Bool :=
  match host.stat path with
  | Except.ok fi => decide (fi.mode &&& 0o777 ≤ 0o644)
  | Except.error _ => false

/-- The file at `path` can be read and is owned by root:root: its uid and gid
are the ids the names `root` and `root` resolve to. -/
def ownedByRoot (host : Host) (path : String) : Bool :=
  match host.lookupUser "root", host.lookupGroup "root", host.stat path with
  | some uid, some gid, Except.ok fi => decide (fi.uid = uid ∧ fi.gid = gid)
  | _, _, _ => false

/-- The paths of the non-directory entries of a walk, in walk order. -/
def nonDirPaths : List WalkEntry → List String
  | [] => []
  | WalkEntry.visited path info :: rest =>
    if info.isDir then nonDirPaths rest else path :: nonDirPaths rest
  | WalkEntry.errored _ _ _ :: rest => nonDirPaths rest

/-- Every call of the walk is one without error. -/
def walkedWithoutError : List WalkEntry → Bool
  | [] => true
  | WalkEntry.visited _ _ :: rest => walkedWithoutError rest
  | WalkEntry.errored _ _ _ :: _ => false

/-- The permission bits a mode grants that the threshold does not grant:
`(m & 0777) & ~threshold`, the complement taken on 32 bit words. -/
def grantedBeyond (m threshold : Nat) : Nat :=
  (m &&& 0o777) &&& ((2 ^ 32 - 1) ^^^ threshold)

/-- The failure, if any, that the assertion `<= 0644` raises on `path`. -/
def permissionsFailure (host : Host) (path : String) : Option Failure :=
  match host.stat path with
  | Except.error e => some (Failure.matcherError path e)
  | Except.ok fi =>
    if Perm fi.mode ≤ 0o644 then none else some (Failure.permissions path (Perm fi.mode) 0o644)

/-- The failure, if any, that the assertion of root:root ownership raises on
`path`. -/
def ownershipFailure (host : Host) (path : String) : Option Failure :=
  match CheckOwnership host path "root" "root" with
  | Except.error e => some (Failure.matcherError path e)
  | Except.ok (true, _, _) => none
  | Except.ok (false, uid, gid) => some (Failure.ownership path uid gid)

/-- The events of one call of a walk callback whose predicate event is `ev`. -/
def callEvents (ev : String → Event) : WalkEntry → List Event
  | WalkEntry.visited path info =>
    if info.isDir then [Event.isDir path] else [Event.isDir path, ev path]
  | WalkEntry.errored _ _ _ => []

/-- The failure, if any, of one call of a walk callback whose predicate fails
as `chk` says. -/
def callFailure (chk : String → Option Failure) : WalkEntry → Option Failure
  | WalkEntry.visited path info => if info.isDir then none else chk path
  | WalkEntry.errored _ _ err => some (Failure.unexpectedError err)

/-- Summary of a walk: the failure that stops it, if any, and the events up to
and including the stopping call. -/
def walkSummary (ev : String → Event) (chk : String → Option Failure) :
    List WalkEntry → Option Failure × List Event
  | [] => (none, [])
  | e :: rest =>
    match callFailure chk e with
    | some f => (some f, callEvents ev e)
    | none => ((walkSummary ev chk rest).1, callEvents ev e ++ (walkSummary ev chk rest).2)

/-- The outcome a walk summary stands for. -/
def summaryOutcome : Option Failure → Outcome
  | none => Outcome.pass
  | some f => Outcome.fail f

/-- The file at `path` can be read and its permission bits are above 0644. -/
def permissionsAbove (host : Host) (path : String) : Bool :=
  match host.stat path with
  | Except.ok fi => decide (0o644 < fi.mode &&& 0o777)
  | Except.error _ => false

/-- The names `root` and `root` resolve, the file at `path` can be read, and its
uid or its gid is not the id resolved: the file is not owned by root:root. -/
def notOwnedByRoot (host : Host) (path : String) : Bool :=
  match host.lookupUser "root", host.lookupGroup "root", host.stat path with
  | some uid, some gid, Except.ok fi => decide (¬ (fi.uid = uid ∧ fi.gid = gid))
  | _, _, _ => false

/-- The non-directory files of a walk that violate a predicate (`violates` says
which paths do), in walk order. -/
def violatingFiles (violates : String → Bool) (entries : List WalkEntry) : List String :=
  (nonDirPaths entries).filter violates

/-- The events of a run of calls of a walk callback that all return. -/
def callsEvents (ev : String → Event) : List WalkEntry → List Event
  | [] => []
  | e :: rest => callEvents ev e ++ callsEvents ev rest

/-- The failure, if any, of the predicate an item asserts on a path: the
permission predicate for 2.2.1, 2.2.3, 2.2.5, 2.2.7 and 2.2.10, the ownership
predicate for the other five. -/
def Item.predicateFailure (host : Host) : Item → String → Option Failure
  | .i2_2_1 => permissionsFailure host
  | .i2_2_3 => permissionsFailure host
  | .i2_2_5 => permissionsFailure host
  | .i2_2_7 => permissionsFailure host
  | .i2_2_10 => permissionsFailure host
  | _ => ownershipFailure host

/-- The event of evaluating the predicate an item asserts. -/
def Item.predicateEvent : Item → String → Event
  | .i2_2_1 => Event.havePermissions
  | .i2_2_3 => Event.havePermissions
  | .i2_2_5 => Event.havePermissions
  | .i2_2_7 => Event.havePermissions
  | .i2_2_10 => Event.havePermissions
  | _ => Event.beOwnedBy

/-! ## Sample hosts -/

/-- A regular file with the given mode, owned by uid 0 and gid 0. -/
def rootFile (mode : Nat) : FileInfo := { isDir := false, mode := mode, uid := 0, gid := 0 }

/-- A directory with the given permission bits and owner. -/
def dirInfo (mode uid gid : Nat) : FileInfo :=
  { isDir := true, mode := 2 ^ 31 + mode, uid := uid, gid := gid }

/-- A host given by the running process names, the answer of the flag resolver,
the files that exist and the calls of the directory walk; `root` is uid 0 and
gid 0. -/
def sampleHost (running : List String) (flagResult : String × Bool × Option GoError)
    (files : List (String × FileInfo)) (entries : List WalkEntry) : Host :=
  { locate := fun n =>
      if n ∈ running then Located.found { name := n, args := [], pid := 1 } else Located.notFound,
    FilePathFromFlag := fun _ _ _ => flagResult,
    stat := fun p =>
      match files.lookup p with
      | some fi => Except.ok fi
      | none => Except.error GoError.notExist,
    walk := fun _ => entries,
    lookupUser := fun n => if n = "root" then some 0 else none,
    lookupGroup := fun n => if n = "root" then some 0 else none }

/-- The process handle `sampleHost` reports for a running process. -/
def sampleProcess (n : String) : ProcessHandle := { name := n, args := [], pid := 1 }

/-- Kubelet running with `--kubeconfig` naming an existing file of the given mode. -/
def hostWithKubeconfig (mode : Nat) : Host :=
  sampleHost ["kubelet"] ("/etc/kubernetes/kubelet.conf", true, none)
    [("/etc/kubernetes/kubelet.conf", rootFile mode)] []

/-- A regular file with the given mode and owner. -/
def userFile (mode uid gid : Nat) : FileInfo :=
  { isDir := false, mode := mode, uid := uid, gid := gid }

/-- First drop-in file of the sample service directory. -/
def dropIn1 : String := "/etc/systemd/system/kubelet.service.d/10-kubeadm.conf"

/-- Second drop-in file of the sample service directory. -/
def dropIn2 : String := "/etc/systemd/system/kubelet.service.d/20-extra.conf"

/-- Kubelet running; the service directory holds two files and both are
world-writable and owned by uid 1000. -/
def hostWithTwoViolations : Host :=
  sampleHost ["kubelet"] ("", false, none)
    [(kubeletServiceFileDir, dirInfo 0o755 0 0),
     (dropIn1, userFile 0o666 1000 1000),
     (dropIn2, userFile 0o777 1000 1000)]
    [WalkEntry.visited kubeletServiceFileDir (dirInfo 0o755 0 0),
     WalkEntry.visited dropIn1 (userFile 0o666 1000 1000),
     WalkEntry.visited dropIn2 (userFile 0o777 1000 1000)]

/-- Kubelet running; the service directory, of the given mode and owner, holds
one file of mode 0644 owned by root:root. -/
def hostWithServiceDir (mode uid gid : Nat) : Host :=
  sampleHost ["kubelet"] ("", false, none)
    [(kubeletServiceFileDir, dirInfo mode uid gid),
     (dropIn1, rootFile 0o644)]
    [WalkEntry.visited kubeletServiceFileDir (dirInfo mode uid gid),
     WalkEntry.visited dropIn1 (rootFile 0o644)]

/-- Kubelet and kube-proxy running; the resolved flag names a path that does not
exist. -/
def hostWithMissingFile : Host :=
  sampleHost ["kubelet", "kube-proxy"] ("/var/lib/kubelet/kubeconfig", false, none) [] []

/-- Kubelet and kube-proxy running without the flag: the resolver returns the
empty path. -/
def hostWithFlagUnset : Host :=
  sampleHost ["kubelet", "kube-proxy"] ("", false, none) [] []

/-- No node process running; the service directory and a kubeconfig exist. -/
def hostWithoutProcesses : Host :=
  sampleHost [] ("/etc/kubernetes/kubelet.conf", true, none)
    [("/etc/kubernetes/kubelet.conf", rootFile 0o600),
     (kubeletServiceFileDir, dirInfo 0o755 0 0)]
    [WalkEntry.visited kubeletServiceFileDir (dirInfo 0o755 0 0)]

/-- Kubelet running without `--config`; the resolver returns the empty path and
reports it as existing. -/
def hostWithFlagUnsetExisting : Host :=
  sampleHost ["kubelet"] ("", true, none) [] []

/-- Kubelet and kube-proxy running; the flag resolver fails with a permission
error although it returns a path and reports it as existing. -/
def hostWithResolverError : Host :=
  sampleHost ["kubelet", "kube-proxy"]
    ("/etc/kubernetes/kubelet.conf", true, some (GoError.other "permission denied"))
    [("/etc/kubernetes/kubelet.conf", rootFile 0o600)] []

/-- Kubelet running; the stat of the service directory fails with a permission
error. -/
def hostWithUnreadableServiceDir : Host :=
  { sampleHost ["kubelet"] ("", false, none) [] [] with
    stat := fun _ => Except.error (GoError.other "permission denied") }

/-- Kubelet running; the walk of the service directory reaches one good file and
then an entry it cannot read, followed by a world-writable file. -/
def hostWithWalkError : Host :=
  sampleHost ["kubelet"] ("", false, none)
    [(kubeletServiceFileDir, dirInfo 0o755 0 0),
     (dropIn1, rootFile 0o644),
     (dropIn2, userFile 0o777 1000 1000)]
    [WalkEntry.visited kubeletServiceFileDir (dirInfo 0o755 0 0),
     WalkEntry.visited dropIn1 (rootFile 0o644),
     WalkEntry.errored "/etc/systemd/system/kubelet.service.d/15-broken.conf" none
       (GoError.other "permission denied"),
     WalkEntry.visited dropIn2 (userFile 0o777 1000 1000)]

/-- Two item runs in a row on sample hosts: item 2.2.1 with a kubeconfig present,
then item 2.2.2 with kubelet running without the flag. -/
def sampleRuns : List (Item × Host) :=
  [(Item.i2_2_1, hostWithKubeconfig 0o600), (Item.i2_2_2, hostWithFlagUnset)]

/-! ## Unfolding lemmas -/

theorem bind_apply {α β : Type} (x : Node α) (f : α → Node β) (s : St) :
    (x >>= f) s = Node.bind x f s := rfl

theorem pure_apply {α : Type} (a : α) (s : St) : (pure a : Node α) s = (Except.ok a, s) := rfl

theorem Perm_0644 : Perm 0o644 = 0o644 := by decide

theorem ofString_le : Comparator.ofString "<=" = some Comparator.le := by decide

theorem expectPermissions_apply (host : Host) (path : String) (s : St) :
    ExpectToHavePermissionsNumerically host path "<=" 0o644 s =
      (match permissionsFailure host path with
        | none => Except.ok ()
        | some f => Except.error (Abort.fail f),
       { s with trace := s.trace ++ [Event.havePermissions path] }) := by
  simp only [ExpectToHavePermissionsNumerically, bind_apply, Node.bind, emit, ofString_le,
    CheckPermissions, permissionsFailure, Perm_0644, Comparator.eval]
  cases hs : host.stat path with
  | error e => simp [Fail]
  | ok fi =>
    by_cases hle : Perm fi.mode ≤ 0o644
    · simp [hle, pure_apply]
    · simp [hle, Fail]

theorem expectOwnedBy_apply (host : Host) (path : String) (s : St) :
    ExpectToBeOwnedBy host path "root" "root" s =
      (match ownershipFailure host path with
        | none => Except.ok ()
        | some f => Except.error (Abort.fail f),
       { s with trace := s.trace ++ [Event.beOwnedBy path] }) := by
  simp only [ExpectToBeOwnedBy, bind_apply, Node.bind, emit, ownershipFailure]
  rcases hc : CheckOwnership host path "root" "root" with e | ⟨b, uid, gid⟩
  · simp [Fail]
  · cases b <;> simp [Fail, pure_apply]

theorem permissionsFailure_eq_none (host : Host) (path : String) :
    permissionsFailure host path = none ↔ permissionsOK host path = true := by
  unfold permissionsFailure permissionsOK Perm
  cases host.stat path with
  | error e => simp
  | ok fi => by_cases hle : fi.mode &&& 0o777 ≤ 0o644 <;> simp [hle]

theorem ownershipFailure_eq_none (host : Host) (path : String) :
    ownershipFailure host path = none ↔ ownedByRoot host path = true := by
  unfold ownershipFailure ownedByRoot CheckOwnership
  cases host.lookupUser "root" with
  | none => simp
  | some uid =>
    cases host.lookupGroup "root" with
    | none => simp
    | some gid =>
      cases host.stat path with
      | error e => simp
      | ok fi => by_cases h : fi.uid = uid ∧ fi.gid = gid <;> simp [h]

theorem walkCalls_permissions (host : Host) (entries : List WalkEntry) (s : St) :
    filepathWalkCalls (walkFnPermissions host) entries s =
      (match (walkSummary Event.havePermissions (permissionsFailure host) entries).1 with
        | none => Except.ok none
        | some f => Except.error (Abort.fail f),
       { s with trace :=
          s.trace ++ (walkSummary Event.havePermissions (permissionsFailure host) entries).2 }) := by
  induction entries generalizing s with
  | nil => simp [filepathWalkCalls, walkSummary, pure_apply]
  | cons e rest ih =>
    cases e with
    | visited path info =>
      cases hd : info.isDir with
      | true =>
        simp [filepathWalkCalls, walkSummary, callFailure, callEvents, walkFnPermissions,
          infoIsDir, bind_apply, pure_apply, Node.bind, emit, ExpectNotToHaveOccurred,
          Node.pure, hd, ih]
      | false =>
        cases hf : permissionsFailure host path with
        | none =>
          simp [filepathWalkCalls, walkSummary, callFailure, callEvents, walkFnPermissions,
            infoIsDir, bind_apply, pure_apply, Node.bind, emit, ExpectNotToHaveOccurred,
            Node.pure, hd, ih, expectPermissions_apply, hf]
        | some f =>
          simp [filepathWalkCalls, walkSummary, callFailure, callEvents, walkFnPermissions,
            infoIsDir, bind_apply, pure_apply, Node.bind, emit, ExpectNotToHaveOccurred,
            Node.pure, hd, expectPermissions_apply, hf]
    | errored path info err =>
      simp [filepathWalkCalls, walkSummary, callFailure, callEvents, walkFnPermissions,
        bind_apply, Node.bind, ExpectNotToHaveOccurred, Fail]

theorem walkCalls_ownership (host : Host) (entries : List WalkEntry) (s : St) :
    filepathWalkCalls (walkFnOwnership host) entries s =
      (match (walkSummary Event.beOwnedBy (ownershipFailure host) entries).1 with
        | none => Except.ok none
        | some f => Except.error (Abort.fail f),
       { s with trace :=
          s.trace ++ (walkSummary Event.beOwnedBy (ownershipFailure host) entries).2 }) := by
  induction entries generalizing s with
  | nil => simp [filepathWalkCalls, walkSummary, pure_apply]
  | cons e rest ih =>
    cases e with
    | visited path info =>
      cases hd : info.isDir with
      | true =>
        simp [filepathWalkCalls, walkSummary, callFailure, callEvents, walkFnOwnership,
          infoIsDir, bind_apply, pure_apply, Node.bind, emit, ExpectNotToHaveOccurred,
          Node.pure, hd, ih]
      | false =>
        cases hf : ownershipFailure host path with
        | none =>
          simp [filepathWalkCalls, walkSummary, callFailure, callEvents, walkFnOwnership,
            infoIsDir, bind_apply, pure_apply, Node.bind, emit, ExpectNotToHaveOccurred,
            Node.pure, hd, ih, expectOwnedBy_apply, hf]
        | some f =>
          simp [filepathWalkCalls, walkSummary, callFailure, callEvents, walkFnOwnership,
            infoIsDir, bind_apply, pure_apply, Node.bind, emit, ExpectNotToHaveOccurred,
            Node.pure, hd, expectOwnedBy_apply, hf]
    | errored path info err =>
      simp [filepathWalkCalls, walkSummary, callFailure, callEvents, walkFnOwnership,
        bind_apply, Node.bind, ExpectNotToHaveOccurred, Fail]

theorem run_permissions_walk (missingProcessFunc : MissingProcessHandlerFunc) (cwd : String)
    (host : Host) (vars : Vars) (proc : ProcessHandle) (fi : FileInfo)
    (hproc : host.locate "kubelet" = Located.found proc)
    (hstat : host.stat kubeletServiceFileDir = Except.ok fi) :
    (runItem missingProcessFunc cwd host vars Item.i2_2_3).outcome =
      summaryOutcome (walkSummary Event.havePermissions (permissionsFailure host)
        (host.walk kubeletServiceFileDir)).1 ∧
    (runItem missingProcessFunc cwd host vars Item.i2_2_3).trace =
      [Event.locate "kubelet", Event.stat kubeletServiceFileDir, Event.walk kubeletServiceFileDir]
        ++ (walkSummary Event.havePermissions (permissionsFailure host)
        (host.walk kubeletServiceFileDir)).2 := by
  cases hw : (walkSummary Event.havePermissions (permissionsFailure host)
        (host.walk kubeletServiceFileDir)).1 <;>
  simp [runItem, ConfigurationFiles, Spec.run, runNodes, frameworkBeforeEach,
    serviceFileDirBeforeEach, itemBody, filepathWalk, bind_apply, pure_apply, Node.bind, emit,
    setVars, Skip, Fail, ExpectNotToHaveOccurred, Node.pure, hproc, hstat, osIsNotExist,
    walkCalls_permissions, summaryOutcome, hw]

theorem run_ownership_walk (missingProcessFunc : MissingProcessHandlerFunc) (cwd : String)
    (host : Host) (vars : Vars) (proc : ProcessHandle) (fi : FileInfo)
    (hproc : host.locate "kubelet" = Located.found proc)
    (hstat : host.stat kubeletServiceFileDir = Except.ok fi) :
    (runItem missingProcessFunc cwd host vars Item.i2_2_4).outcome =
      summaryOutcome (walkSummary Event.beOwnedBy (ownershipFailure host)
        (host.walk kubeletServiceFileDir)).1 ∧
    (runItem missingProcessFunc cwd host vars Item.i2_2_4).trace =
      [Event.locate "kubelet", Event.stat kubeletServiceFileDir, Event.walk kubeletServiceFileDir]
        ++ (walkSummary Event.beOwnedBy (ownershipFailure host)
        (host.walk kubeletServiceFileDir)).2 := by
  cases hw : (walkSummary Event.beOwnedBy (ownershipFailure host)
        (host.walk kubeletServiceFileDir)).1 <;>
  simp [runItem, ConfigurationFiles, Spec.run, runNodes, frameworkBeforeEach,
    serviceFileDirBeforeEach, itemBody, filepathWalk, bind_apply, pure_apply, Node.bind, emit,
    setVars, Skip, Fail, ExpectNotToHaveOccurred, Node.pure, hproc, hstat, osIsNotExist,
    walkCalls_ownership, summaryOutcome, hw]

theorem walkSummary_without_error (ev : String → Event) (chk : String → Option Failure)
    (entries : List WalkEntry) (hw : walkedWithoutError entries = true) :
    (walkSummary ev chk entries).1 = (nonDirPaths entries).findSome? chk := by
  induction entries with
  | nil => rfl
  | cons e rest ih =>
    cases e with
    | errored path info err => simp [walkedWithoutError] at hw
    | visited path info =>
      have ih2 := ih (by simpa [walkedWithoutError] using hw)
      cases hd : info.isDir with
      | true => simp [walkSummary, callFailure, nonDirPaths, hd, ih2]
      | false =>
        cases hc : chk path with
        | none => simp [walkSummary, callFailure, nonDirPaths, hd, ih2, hc]
        | some f => simp [walkSummary, callFailure, nonDirPaths, hd, hc]

theorem findSome_names_first (chk : String → Option Failure) (ok : String → Bool)
    (hok : ∀ p, chk p = none ↔ ok p = true)
    (hname : ∀ p f, chk p = some f → f.namedFiles = [p]) (l : List String) :
    (summaryOutcome (l.findSome? chk)).namedFiles = (l.filter (fun p => !ok p)).take 1 ∧
    (summaryOutcome (l.findSome? chk) = Outcome.pass ↔ ∀ p ∈ l, ok p = true) ∧
    (l.filter (fun p => !ok p) ≠ [] → ∃ f, summaryOutcome (l.findSome? chk) = Outcome.fail f) := by
  induction l with
  | nil => simp [summaryOutcome, Outcome.namedFiles]
  | cons p rest ih =>
    cases hc : chk p with
    | none =>
      have hp : ok p = true := (hok p).1 hc
      simpa [List.findSome?, hc, hp] using ih
    | some f =>
      have hp : ok p = false := by
        cases h : ok p with
        | false => rfl
        | true => rw [(hok p).2 h] at hc; cases hc
      simp [List.findSome?, hc, hp, summaryOutcome, Outcome.namedFiles, hname p f hc]

theorem findSome_agree {α : Type} (f g : String → Option α) (l : List String)
    (h : ∀ p ∈ l, f p = g p) : l.findSome? f = l.findSome? g := by
  induction l with
  | nil => rfl
  | cons p rest ih =>
    have hp : f p = g p := h p (List.mem_cons_self p rest)
    have hr : rest.findSome? f = rest.findSome? g :=
      ih (fun q hq => h q (List.mem_cons_of_mem p hq))
    simp [List.findSome?, hp, hr]

theorem permissionsFailure_names (host : Host) (p : String) (f : Failure)
    (h : permissionsFailure host p = some f) : f.namedFiles = [p] := by
  unfold permissionsFailure at h
  split at h
  · cases h; rfl
  · split at h
    · cases h
    · cases h; rfl

theorem ownershipFailure_names (host : Host) (p : String) (f : Failure)
    (h : ownershipFailure host p = some f) : f.namedFiles = [p] := by
  unfold ownershipFailure at h
  split at h
  · cases h; rfl
  · cases h
  · cases h; rfl

theorem mem_nonDirPaths (entries : List WalkEntry) (p : String) :
    p ∈ nonDirPaths entries ↔
      ∃ info, WalkEntry.visited p info ∈ entries ∧ info.isDir = false := by
  induction entries with
  | nil => simp [nonDirPaths]
  | cons e rest ih =>
    cases e with
    | errored path info err => simp [nonDirPaths, ih]
    | visited path info =>
      cases hd : info.isDir with
      | true =>
        simp only [nonDirPaths, hd, if_true, ih, List.mem_cons, WalkEntry.visited.injEq]
        constructor
        · rintro ⟨i, hi, hi2⟩
          exact ⟨i, Or.inr hi, hi2⟩
        · rintro ⟨i, hi | hi, hi2⟩
          · obtain ⟨rfl, rfl⟩ := hi
            rw [hd] at hi2; cases hi2
          · exact ⟨i, hi, hi2⟩
      | false =>
        simp only [nonDirPaths, hd, Bool.false_eq_true, if_false, List.mem_cons, ih,
          WalkEntry.visited.injEq]
        constructor
        · rintro (rfl | ⟨i, hi, hi2⟩)
          · exact ⟨info, Or.inl ⟨rfl, rfl⟩, hd⟩
          · exact ⟨i, Or.inr hi, hi2⟩
        · rintro ⟨i, hi | hi, hi2⟩
          · exact Or.inl hi.1
          · exact Or.inr ⟨i, hi, hi2⟩

theorem walkSummary_errored (ev : String → Event) (chk : String → Option Failure)
    (pre post : List WalkEntry) (path : String) (info : Option FileInfo) (err : GoError) :
    (∃ f, (walkSummary ev chk (pre ++ WalkEntry.errored path info err :: post)).1 = some f) ∧
    ((walkSummary ev chk pre).1 = none →
      (walkSummary ev chk (pre ++ WalkEntry.errored path info err :: post)).1 =
        some (Failure.unexpectedError err)) ∧
    (∀ x ∈ (walkSummary ev chk (pre ++ WalkEntry.errored path info err :: post)).2,
      ∃ q fi, WalkEntry.visited q fi ∈ pre ∧ (x = Event.isDir q ∨ x = ev q)) := by
  induction pre with
  | nil => simp [walkSummary, callFailure, callEvents]
  | cons e rest ih =>
    obtain ⟨⟨f, hf⟩, ih2, ih3⟩ := ih
    have hev : ∀ x ∈ callEvents ev e,
        ∃ q fi, WalkEntry.visited q fi ∈ e :: rest ∧ (x = Event.isDir q ∨ x = ev q) := by
      intro x hx
      cases e with
      | errored p i2 e2 => simp [callEvents] at hx
      | visited p i2 =>
        refine ⟨p, i2, List.mem_cons_self _ _, ?_⟩
        cases hd : i2.isDir <;> simp [callEvents, hd] at hx
        · rcases hx with rfl | rfl
          · exact Or.inl rfl
          · exact Or.inr rfl
        · exact Or.inl hx
    have hrest : ∀ x ∈ (walkSummary ev chk (rest ++ WalkEntry.errored path info err :: post)).2,
        ∃ q fi, WalkEntry.visited q fi ∈ e :: rest ∧ (x = Event.isDir q ∨ x = ev q) := by
      intro x hx
      obtain ⟨q, fi, hm, hq⟩ := ih3 x hx
      exact ⟨q, fi, List.mem_cons_of_mem _ hm, hq⟩
    cases hc : callFailure chk e with
    | some g =>
      refine ⟨⟨g, by simp [walkSummary, hc]⟩, ?_, ?_⟩
      · intro h
        simp [walkSummary, hc] at h
      · intro x hx
        simp only [List.cons_append, walkSummary, hc] at hx
        exact hev x hx
    | none =>
      refine ⟨⟨f, by simp [walkSummary, hc, hf]⟩, ?_, ?_⟩
      · intro h
        simp only [walkSummary, hc] at h
        simp [walkSummary, hc, ih2 h]
      · intro x hx
        simp only [List.cons_append, walkSummary, hc, List.mem_append] at hx
        rcases hx with hx | hx
        · exact hev x hx
        · exact hrest x hx

theorem permissionsOK_eq_not_above (host : Host) (q : String) (fq : FileInfo)
    (h : host.stat q = Except.ok fq) :
    permissionsOK host q = !permissionsAbove host q := by
  unfold permissionsOK permissionsAbove
  rw [h]
  by_cases hle : fq.mode &&& 0o777 ≤ 0o644
  · simp [hle, Nat.not_lt.2 hle]
  · simp [hle, Nat.lt_of_not_le hle]

theorem ownedByRoot_eq_not_notOwned (host : Host) (q : String) (fq : FileInfo) (uid gid : Nat)
    (hu : host.lookupUser "root" = some uid) (hg : host.lookupGroup "root" = some gid)
    (h : host.stat q = Except.ok fq) :
    ownedByRoot host q = !notOwnedByRoot host q := by
  unfold ownedByRoot notOwnedByRoot
  rw [hu, hg, h]
  by_cases ho : fq.uid = uid ∧ fq.gid = gid <;> simp [ho]

theorem notOwnedByRoot_resolves (host : Host) (q : String)
    (h : notOwnedByRoot host q = true) :
    ∃ uid gid, host.lookupUser "root" = some uid ∧ host.lookupGroup "root" = some gid := by
  unfold notOwnedByRoot at h
  cases hu : host.lookupUser "root" with
  | none => simp [hu] at h
  | some uid =>
    cases hg : host.lookupGroup "root" with
    | none => simp [hu, hg] at h
    | some gid => exact ⟨uid, gid, rfl, rfl⟩

theorem visited_of_walkedWithoutError (entries : List WalkEntry)
    (hw : walkedWithoutError entries = true) (e : WalkEntry) (he : e ∈ entries) :
    ∃ p info, e = WalkEntry.visited p info := by
  induction entries with
  | nil => cases he
  | cons x rest ih =>
    cases x with
    | errored p i err => simp [walkedWithoutError] at hw
    | visited p i =>
      rcases List.mem_cons.1 he with rfl | hr
      · exact ⟨p, i, rfl⟩
      · exact ih (by simpa [walkedWithoutError] using hw) hr

theorem walkSummary_stops (ev : String → Event) (chk : String → Option Failure)
    (pre post : List WalkEntry) (x : WalkEntry) (f : Failure)
    (hpre : ∀ e ∈ pre, callFailure chk e = none) (hf : callFailure chk x = some f) :
    walkSummary ev chk (pre ++ x :: post) = (some f, callsEvents ev pre ++ callEvents ev x) := by
  induction pre with
  | nil => simp [walkSummary, hf, callsEvents]
  | cons e rest ih =>
    have he : callFailure chk e = none := hpre e (List.mem_cons_self e rest)
    have hr := ih (fun y hy => hpre y (List.mem_cons_of_mem e hy))
    simp [walkSummary, he, hr, callsEvents]

theorem calls_pass_before_first (chk : String → Option Failure)
    (violates ok : String → Bool) (entries pre post : List WalkEntry) (x : WalkEntry)
    (hok : ∀ q, chk q = none ↔ ok q = true)
    (hcompl : ∀ q ∈ nonDirPaths entries, ok q = !violates q)
    (hw : walkedWithoutError entries = true)
    (hsplit : entries = pre ++ x :: post)
    (hnone : ∀ q ∈ nonDirPaths pre, violates q = false) :
    ∀ e ∈ pre, callFailure chk e = none := by
  intro e he
  have hmem : e ∈ entries := by rw [hsplit]; exact List.mem_append_left _ he
  obtain ⟨q, info, rfl⟩ := visited_of_walkedWithoutError entries hw e hmem
  cases hd : info.isDir with
  | true => simp [callFailure, hd]
  | false =>
    have hq1 : q ∈ nonDirPaths pre := (mem_nonDirPaths pre q).2 ⟨info, he, hd⟩
    have hq2 : q ∈ nonDirPaths entries := (mem_nonDirPaths entries q).2 ⟨info, hmem, hd⟩
    have : ok q = true := by rw [hcompl q hq2, hnone q hq1]; rfl
    simp [callFailure, hd, (hok q).2 this]

theorem first_violating_call_fails (chk : String → Option Failure)
    (violates ok : String → Bool) (entries pre post : List WalkEntry) (p : String)
    (info : FileInfo)
    (hok : ∀ q, chk q = none ↔ ok q = true)
    (hname : ∀ q f, chk q = some f → f.namedFiles = [q])
    (hcompl : ∀ q ∈ nonDirPaths entries, ok q = !violates q)
    (hsplit : entries = pre ++ WalkEntry.visited p info :: post)
    (hd : info.isDir = false) (hv : violates p = true) :
    ∃ f, callFailure chk (WalkEntry.visited p info) = some f ∧ f.namedFiles = [p] := by
  have hp : p ∈ nonDirPaths entries :=
    (mem_nonDirPaths entries p).2 ⟨info, by rw [hsplit]; simp, hd⟩
  have hnot : ok p = false := by rw [hcompl p hp, hv]; rfl
  cases hc : chk p with
  | none => rw [(hok p).1 hc] at hnot; cases hnot
  | some f => exact ⟨f, by simp [callFailure, hd, hc], hname p f hc⟩

theorem run_notFound (missingProcessFunc : MissingProcessHandlerFunc) (cwd : String)
    (host : Host) (vars : Vars) (i : Item)
    (hproc : host.locate i.processName = Located.notFound) :
    (runItem missingProcessFunc cwd host vars i).outcome =
      (missingProcessFunc processNotFound).toOutcome ∧
    (runItem missingProcessFunc cwd host vars i).trace = [Event.locate i.processName] := by
  cases i <;> simp only [Item.processName] at hproc <;>
    cases hm : missingProcessFunc processNotFound <;>
    simp [runItem, ConfigurationFiles, Spec.run, runNodes, frameworkBeforeEach,
      bind_apply, Node.bind, emit, Skip, Fail, hproc, hm, Abort.toOutcome, Item.processName]

theorem run_locateFailed (missingProcessFunc : MissingProcessHandlerFunc) (cwd : String)
    (host : Host) (vars : Vars) (i : Item) (e : GoError)
    (hproc : host.locate i.processName = Located.failed e) :
    (runItem missingProcessFunc cwd host vars i).outcome =
      Outcome.fail (Failure.unexpectedError e) ∧
    (runItem missingProcessFunc cwd host vars i).trace = [Event.locate i.processName] := by
  cases i <;> simp only [Item.processName] at hproc <;>
    simp [runItem, ConfigurationFiles, Spec.run, runNodes, frameworkBeforeEach,
      bind_apply, Node.bind, emit, Skip, Fail, hproc, Item.processName]

theorem run_resolverError (missingProcessFunc : MissingProcessHandlerFunc) (cwd : String)
    (host : Host) (vars : Vars) (i : Item) (proc : ProcessHandle) (flag base p : String)
    (fileExists : Bool) (e : GoError)
    (hq : i.flagQuery cwd = some (flag, base))
    (hproc : host.locate i.processName = Located.found proc)
    (hres : host.FilePathFromFlag (some proc) flag base = (p, fileExists, some e)) :
    (runItem missingProcessFunc cwd host vars i).outcome =
      Outcome.fail (Failure.unexpectedError e) ∧
    (runItem missingProcessFunc cwd host vars i).trace =
      [Event.locate i.processName, Event.resolveFlag (some proc) flag base] := by
  cases i <;>
    simp only [Item.flagQuery, Option.some.injEq, Prod.mk.injEq, reduceCtorEq] at hq <;>
    obtain ⟨rfl, rfl⟩ := hq <;>
    simp only [Item.processName] at hproc <;>
    simp [runItem, ConfigurationFiles, Spec.run, runNodes, frameworkBeforeEach,
      kubeletKubeconfigBeforeEach, proxyKubeconfigBeforeEach, clientCAFileBeforeEach,
      kubeletConfigBeforeEach, bind_apply, pure_apply, Node.bind, emit, setVars,
      getVars, Skip, Fail, ExpectNotToHaveOccurred, Node.pure, hproc, hres,
      FrameworkSlot.setProcess, Item.processName]

theorem run_configUnset (missingProcessFunc : MissingProcessHandlerFunc) (cwd : String)
    (host : Host) (vars : Vars) (i : Item) (proc : ProcessHandle) (fileExists : Bool)
    (hi : i = Item.i2_2_9 ∨ i = Item.i2_2_10)
    (hproc : host.locate "kubelet" = Located.found proc)
    (hres : host.FilePathFromFlag (some proc) "config" "" = ("", fileExists, none)) :
    (runItem missingProcessFunc cwd host vars i).outcome = Outcome.skip "--config is not set" ∧
    (runItem missingProcessFunc cwd host vars i).trace =
      [Event.locate "kubelet", Event.resolveFlag (some proc) "config" ""] := by
  rcases hi with rfl | rfl <;>
    simp [runItem, ConfigurationFiles, Spec.run, runNodes, frameworkBeforeEach,
      kubeletConfigBeforeEach, bind_apply, pure_apply, Node.bind, emit, setVars,
      getVars, Skip, Fail, ExpectNotToHaveOccurred, Node.pure, hproc, hres,
      FrameworkSlot.setProcess]

theorem run_missingFile (missingProcessFunc : MissingProcessHandlerFunc) (cwd : String)
    (host : Host) (vars : Vars) (i : Item) (proc : ProcessHandle) (flag base p : String)
    (hq : i.flagQuery cwd = some (flag, base))
    (hproc : host.locate i.processName = Located.found proc)
    (hres : host.FilePathFromFlag (some proc) flag base = (p, false, none))
    (hp : flag = "config" → p ≠ "") :
    (runItem missingProcessFunc cwd host vars i).outcome =
      Outcome.skip (p ++ " does not exist") ∧
    (runItem missingProcessFunc cwd host vars i).trace =
      [Event.locate i.processName, Event.resolveFlag (some proc) flag base] := by
  cases i <;>
    simp only [Item.flagQuery, Option.some.injEq, Prod.mk.injEq, reduceCtorEq] at hq <;>
    obtain ⟨rfl, rfl⟩ := hq <;>
    simp only [Item.processName] at hproc <;>
    simp at hp <;>
    simp [runItem, ConfigurationFiles, Spec.run, runNodes, frameworkBeforeEach,
      kubeletKubeconfigBeforeEach, proxyKubeconfigBeforeEach, clientCAFileBeforeEach,
      kubeletConfigBeforeEach, bind_apply, pure_apply, Node.bind, emit, setVars,
      getVars, Skip, Fail, ExpectNotToHaveOccurred, Node.pure, hproc, hres, hp,
      FrameworkSlot.setProcess, Item.processName]

theorem run_presentFile (missingProcessFunc : MissingProcessHandlerFunc) (cwd : String)
    (host : Host) (vars : Vars) (i : Item) (proc : ProcessHandle) (flag base p : String)
    (hq : i.flagQuery cwd = some (flag, base))
    (hproc : host.locate i.processName = Located.found proc)
    (hres : host.FilePathFromFlag (some proc) flag base = (p, true, none))
    (hp : flag = "config" → p ≠ "") :
    (runItem missingProcessFunc cwd host vars i).outcome =
      summaryOutcome (i.predicateFailure host p) ∧
    (runItem missingProcessFunc cwd host vars i).trace =
      [Event.locate i.processName, Event.resolveFlag (some proc) flag base,
       i.predicateEvent p] := by
  cases i <;>
    simp only [Item.flagQuery, Option.some.injEq, Prod.mk.injEq, reduceCtorEq] at hq <;>
    obtain ⟨rfl, rfl⟩ := hq <;>
    simp only [Item.processName] at hproc <;>
    simp at hp <;>
    simp only [Item.predicateFailure, Item.predicateEvent] <;>
    first
    | (cases hf : permissionsFailure host p <;>
        simp [runItem, ConfigurationFiles, Spec.run, runNodes, frameworkBeforeEach,
          kubeletKubeconfigBeforeEach, proxyKubeconfigBeforeEach, clientCAFileBeforeEach,
          kubeletConfigBeforeEach, itemBody, bind_apply, pure_apply, Node.bind, emit, setVars,
          getVars, Skip, Fail, ExpectNotToHaveOccurred, Node.pure, hproc, hres, hp,
          FrameworkSlot.setProcess, Item.processName, expectPermissions_apply,
          expectOwnedBy_apply, summaryOutcome, hf]; done)
    | (cases hf : ownershipFailure host p <;>
        simp [runItem, ConfigurationFiles, Spec.run, runNodes, frameworkBeforeEach,
          kubeletKubeconfigBeforeEach, proxyKubeconfigBeforeEach, clientCAFileBeforeEach,
          kubeletConfigBeforeEach, itemBody, bind_apply, pure_apply, Node.bind, emit, setVars,
          getVars, Skip, Fail, ExpectNotToHaveOccurred, Node.pure, hproc, hres, hp,
          FrameworkSlot.setProcess, Item.processName, expectPermissions_apply,
          expectOwnedBy_apply, summaryOutcome, hf])

theorem run_serviceDirAbsent (missingProcessFunc : MissingProcessHandlerFunc) (cwd : String)
    (host : Host) (vars : Vars) (i : Item) (proc : ProcessHandle)
    (hi : i = Item.i2_2_3 ∨ i = Item.i2_2_4)
    (hproc : host.locate "kubelet" = Located.found proc)
    (hstat : host.stat kubeletServiceFileDir = Except.error GoError.notExist) :
    (runItem missingProcessFunc cwd host vars i).outcome =
      Outcome.skip (kubeletServiceFileDir ++ " does not exist") ∧
    (runItem missingProcessFunc cwd host vars i).trace =
      [Event.locate "kubelet", Event.stat kubeletServiceFileDir] := by
  rcases hi with rfl | rfl <;>
    simp [runItem, ConfigurationFiles, Spec.run, runNodes, frameworkBeforeEach,
      serviceFileDirBeforeEach, bind_apply, pure_apply, Node.bind, emit, setVars,
      Skip, Fail, ExpectNotToHaveOccurred, Node.pure, hproc, hstat, osIsNotExist]

theorem run_serviceDirError (missingProcessFunc : MissingProcessHandlerFunc) (cwd : String)
    (host : Host) (vars : Vars) (i : Item) (proc : ProcessHandle) (e : GoError)
    (hi : i = Item.i2_2_3 ∨ i = Item.i2_2_4)
    (hproc : host.locate "kubelet" = Located.found proc)
    (hstat : host.stat kubeletServiceFileDir = Except.error e)
    (hne : e ≠ GoError.notExist) :
    (runItem missingProcessFunc cwd host vars i).outcome =
      Outcome.fail (Failure.unexpectedError e) ∧
    (runItem missingProcessFunc cwd host vars i).trace =
      [Event.locate "kubelet", Event.stat kubeletServiceFileDir] := by
  have hnot : osIsNotExist (some e) = false := by
    cases e <;> simp [osIsNotExist] at hne ⊢
  rcases hi with rfl | rfl <;>
    simp [runItem, ConfigurationFiles, Spec.run, runNodes, frameworkBeforeEach,
      serviceFileDirBeforeEach, bind_apply, pure_apply, Node.bind, emit, setVars,
      Skip, Fail, ExpectNotToHaveOccurred, Node.pure, hproc, hstat, hnot]

theorem runItem_vars_irrelevant (missingProcessFunc : MissingProcessHandlerFunc) (cwd : String)
    (host : Host) (v w : Vars) (i : Item) :
    (runItem missingProcessFunc cwd host v i).outcome =
      (runItem missingProcessFunc cwd host w i).outcome ∧
    (runItem missingProcessFunc cwd host v i).trace =
      (runItem missingProcessFunc cwd host w i).trace := by
  have close : ∀ {o : Outcome} {t : List Event},
      (∀ u : Vars, (runItem missingProcessFunc cwd host u i).outcome = o ∧
        (runItem missingProcessFunc cwd host u i).trace = t) →
      (runItem missingProcessFunc cwd host v i).outcome =
        (runItem missingProcessFunc cwd host w i).outcome ∧
      (runItem missingProcessFunc cwd host v i).trace =
        (runItem missingProcessFunc cwd host w i).trace :=
    fun h => ⟨(h v).1.trans (h w).1.symm, (h v).2.trans (h w).2.symm⟩
  rcases hl : host.locate i.processName with proc | _ | e
  · cases hq : i.flagQuery cwd with
    | some fb =>
      obtain ⟨flag, base⟩ := fb
      rcases hres : host.FilePathFromFlag (some proc) flag base with ⟨p, fileExists, _ | e⟩
      · by_cases hp : flag = "config" ∧ p = ""
        · obtain ⟨rfl, rfl⟩ := hp
          have hi : i = Item.i2_2_9 ∨ i = Item.i2_2_10 := by
            cases i <;> simp [Item.flagQuery] at hq <;> simp
          have hb : base = "" := by
            rcases hi with rfl | rfl <;> simp [Item.flagQuery] at hq <;> exact hq.symm
          subst hb
          have hl2 : host.locate "kubelet" = Located.found proc := by
            rcases hi with rfl | rfl <;> exact hl
          exact close (fun u => run_configUnset missingProcessFunc cwd host u i proc fileExists
            hi hl2 hres)
        · have hp2 : flag = "config" → p ≠ "" := fun h1 h2 => hp ⟨h1, h2⟩
          cases fileExists with
          | false =>
            exact close (fun u => run_missingFile missingProcessFunc cwd host u i proc flag base p
              hq hl hres hp2)
          | true =>
            exact close (fun u => run_presentFile missingProcessFunc cwd host u i proc flag base p
              hq hl hres hp2)
      · exact close (fun u => run_resolverError missingProcessFunc cwd host u i proc flag base p
          fileExists e hq hl hres)
    | none =>
      have hi : i = Item.i2_2_3 ∨ i = Item.i2_2_4 := by
        cases i <;> simp [Item.flagQuery] at hq <;> simp
      have hl2 : host.locate "kubelet" = Located.found proc := by
        rcases hi with rfl | rfl <;> exact hl
      rcases hs : host.stat kubeletServiceFileDir with e | fi
      · by_cases he : e = GoError.notExist
        · subst he
          exact close (fun u => run_serviceDirAbsent missingProcessFunc cwd host u i proc hi hl2 hs)
        · exact close (fun u => run_serviceDirError missingProcessFunc cwd host u i proc e hi hl2
            hs he)
      · rcases hi with rfl | rfl
        · exact close (fun u => run_permissions_walk missingProcessFunc cwd host u proc fi hl2 hs)
        · exact close (fun u => run_ownership_walk missingProcessFunc cwd host u proc fi hl2 hs)
  · exact close (fun u => run_notFound missingProcessFunc cwd host u i hl)
  · exact close (fun u => run_locateFailed missingProcessFunc cwd host u i e hl)

theorem predicate_path_is_resolved_path (missingProcessFunc : MissingProcessHandlerFunc)
    (cwd : String) (host : Host) (v : Vars) (i : Item) (flag base q : String)
    (hq : i.flagQuery cwd = some (flag, base))
    (hev : Event.havePermissions q ∈ (runItem missingProcessFunc cwd host v i).trace ∨
      Event.beOwnedBy q ∈ (runItem missingProcessFunc cwd host v i).trace) :
    ∃ proc, host.locate i.processName = Located.found proc ∧
      host.FilePathFromFlag (some proc) flag base = (q, true, none) ∧
      (flag = "config" → q ≠ "") := by
  rcases hl : host.locate i.processName with proc | _ | e
  · rcases hres : host.FilePathFromFlag (some proc) flag base with ⟨p, fileExists, _ | e⟩
    · by_cases hp : flag = "config" ∧ p = ""
      · obtain ⟨rfl, rfl⟩ := hp
        have hi : i = Item.i2_2_9 ∨ i = Item.i2_2_10 := by
          cases i <;> simp [Item.flagQuery] at hq <;> simp
        have hb : base = "" := by
          rcases hi with rfl | rfl <;> simp [Item.flagQuery] at hq <;> exact hq.symm
        subst hb
        have hl2 : host.locate "kubelet" = Located.found proc := by
          rcases hi with rfl | rfl <;> exact hl
        rw [(run_configUnset missingProcessFunc cwd host v i proc fileExists hi hl2 hres).2] at hev
        simp at hev
      · have hp2 : flag = "config" → p ≠ "" := fun h1 h2 => hp ⟨h1, h2⟩
        cases fileExists with
        | false =>
          rw [(run_missingFile missingProcessFunc cwd host v i proc flag base p
            hq hl hres hp2).2] at hev
          simp at hev
        | true =>
          rw [(run_presentFile missingProcessFunc cwd host v i proc flag base p
            hq hl hres hp2).2] at hev
          have hqp : q = p := by
            cases i <;> simp [Item.predicateEvent] at hev <;> exact hev
          subst hqp
          exact ⟨proc, rfl, hres, hp2⟩
    · rw [(run_resolverError missingProcessFunc cwd host v i proc flag base p
        fileExists e hq hl hres).2] at hev
      simp at hev
  · rw [(run_notFound missingProcessFunc cwd host v i hl).2] at hev
    simp at hev
  · rw [(run_locateFailed missingProcessFunc cwd host v i e hl).2] at hev
    simp at hev

theorem runSequence_eq_alone (missingProcessFunc : MissingProcessHandlerFunc) (cwd : String)
    (runs : List (Item × Host)) (v0 : Vars) :
    (runSequence missingProcessFunc cwd runs v0).map (fun r => (r.outcome, r.trace)) =
      runs.map (fun ih =>
        ((runItem missingProcessFunc cwd ih.2 Vars.initial ih.1).outcome,
         (runItem missingProcessFunc cwd ih.2 Vars.initial ih.1).trace)) := by
  induction runs generalizing v0 with
  | nil => rfl
  | cons ih rest hrec =>
    obtain ⟨i, host⟩ := ih
    have h := runItem_vars_irrelevant missingProcessFunc cwd host v0 Vars.initial i
    simp only [runSequence, List.map_cons, hrec, h.1, h.2]

theorem not_set_ne_does_not_exist (p : String) :
    "--config is not set" ≠ p ++ " does not exist" := by
  intro h
  have h2 := congrArg (fun s : String => (s.data.reverse).take 2) h
  simp [String.data_append] at h2

/-! ## The properties -/

/-- C1: for every file mode and each single-file permission item (2.2.1, 2.2.5,
2.2.7, 2.2.10), when the target process is found and the flag resolver returns a
non-empty path with `exists = true` and no error, the item passes iff the
permission bits of the mode (the mode masked to 0777) are numerically at most
0644, and otherwise fails with a permission mismatch reporting both values. -/
theorem single_file_permission_item_passes_iff
    (missingProcessFunc : MissingProcessHandlerFunc) (cwd : String) (host : Host) (vars : Vars)
    (i : Item) (proc : ProcessHandle) (flag base p : String) (fi : FileInfo)
    (hi : i = Item.i2_2_1 ∨ i = Item.i2_2_5 ∨ i = Item.i2_2_7 ∨ i = Item.i2_2_10)
    (hq : i.flagQuery cwd = some (flag, base))
    (hproc : host.locate i.processName = Located.found proc)
    (hres : host.FilePathFromFlag (some proc) flag base = (p, true, none))
    (hp : p ≠ "")
    (hstat : host.stat p = Except.ok fi) :
    ((runItem missingProcessFunc cwd host vars i).outcome = Outcome.pass ↔
        fi.mode &&& 0o777 ≤ 0o644) ∧
    (¬ (fi.mode &&& 0o777 ≤ 0o644) →
      (runItem missingProcessFunc cwd host vars i).outcome =
        Outcome.fail (Failure.permissions p (fi.mode &&& 0o777) 0o644)) := by
  have hpf : permissionsFailure host p =
      if fi.mode &&& 0o777 ≤ 0o644 then none
      else some (Failure.permissions p (fi.mode &&& 0o777) 0o644) := by
    simp [permissionsFailure, hstat, Perm]
  rcases hi with rfl | rfl | rfl | rfl <;>
    simp only [Item.flagQuery, Option.some.injEq, Prod.mk.injEq] at hq <;>
    obtain ⟨rfl, rfl⟩ := hq <;>
    simp only [Item.processName] at hproc <;>
    by_cases hle : fi.mode &&& 0o777 ≤ 0o644 <;>
    simp [runItem, ConfigurationFiles, Spec.run, runNodes, frameworkBeforeEach,
      kubeletKubeconfigBeforeEach, proxyKubeconfigBeforeEach, clientCAFileBeforeEach,
      kubeletConfigBeforeEach, itemBody, bind_apply, pure_apply, Node.bind, emit, setVars,
      getVars, Skip, Fail, ExpectNotToHaveOccurred, Node.pure, hproc, hres, hp,
      FrameworkSlot.setProcess, expectPermissions_apply, hpf, hle]

theorem single_file_permission_item_passes_iff_witness :
    (((runItem skipOnAbsence "/" (hostWithKubeconfig 0o640) Vars.initial Item.i2_2_1).outcome =
        Outcome.pass ↔ 0o640 &&& 0o777 ≤ 0o644) ∧
     (¬ (0o640 &&& 0o777 ≤ 0o644) →
      (runItem skipOnAbsence "/" (hostWithKubeconfig 0o640) Vars.initial Item.i2_2_1).outcome =
        Outcome.fail (Failure.permissions "/etc/kubernetes/kubelet.conf" (0o640 &&& 0o777) 0o644))) ∧
    (runItem skipOnAbsence "/" (hostWithKubeconfig 0o640) Vars.initial Item.i2_2_1).outcome =
      Outcome.pass ∧
    (runItem skipOnAbsence "/" (hostWithKubeconfig 0o666) Vars.initial Item.i2_2_1).outcome =
      Outcome.fail (Failure.permissions "/etc/kubernetes/kubelet.conf" 0o666 0o644) :=
  ⟨single_file_permission_item_passes_iff skipOnAbsence "/" (hostWithKubeconfig 0o640)
      Vars.initial Item.i2_2_1 (sampleProcess "kubelet") "kubeconfig" ""
      "/etc/kubernetes/kubelet.conf" (rootFile 0o640) (Or.inl rfl) rfl (by decide) rfl
      (by decide) rfl,
   by decide, by decide⟩

/-- C2: item 2.2.1 on a kubeconfig of mode 0466 passes, although the mode grants
the write bits of group and others (022), which 0644 does not grant: a passing
permission item does not imply that the file is 644 or more restrictive. -/
theorem numeric_comparison_passes_group_writable_file :
    (runItem skipOnAbsence "/" (hostWithKubeconfig 0o466) Vars.initial Item.i2_2_1).outcome =
      Outcome.pass ∧
    grantedBeyond 0o466 0o644 = 0o022 ∧
    grantedBeyond 0o466 0o644 ≠ 0 := by
  decide

/-- C3: for every flag-driven item and every non-empty path `p`, if the target
process is found and the flag resolver returns `(p, false, nil)`, the outcome is
Skip with the reason `p ++ " does not exist"`; it is never Fail, the run consists
of the process lookup and the flag resolution only, and no permission or
ownership predicate is evaluated. -/
theorem missing_path_skips_without_predicate
    (missingProcessFunc : MissingProcessHandlerFunc) (cwd : String) (host : Host) (vars : Vars)
    (i : Item) (proc : ProcessHandle) (flag base p : String)
    (hq : i.flagQuery cwd = some (flag, base))
    (hproc : host.locate i.processName = Located.found proc)
    (hres : host.FilePathFromFlag (some proc) flag base = (p, false, none))
    (hp : p ≠ "") :
    (runItem missingProcessFunc cwd host vars i).outcome = Outcome.skip (p ++ " does not exist") ∧
    (∀ f, (runItem missingProcessFunc cwd host vars i).outcome ≠ Outcome.fail f) ∧
    (runItem missingProcessFunc cwd host vars i).trace =
      [Event.locate i.processName, Event.resolveFlag (some proc) flag base] ∧
    (∀ q, Event.havePermissions q ∉ (runItem missingProcessFunc cwd host vars i).trace ∧
          Event.beOwnedBy q ∉ (runItem missingProcessFunc cwd host vars i).trace) := by
  cases i <;> simp only [Item.flagQuery, Option.some.injEq, Prod.mk.injEq, reduceCtorEq] at hq <;>
    obtain ⟨rfl, rfl⟩ := hq <;>
    simp only [Item.processName] at hproc <;>
    simp [runItem, ConfigurationFiles, Spec.run, runNodes, frameworkBeforeEach,
      kubeletKubeconfigBeforeEach, proxyKubeconfigBeforeEach, clientCAFileBeforeEach,
      kubeletConfigBeforeEach, bind_apply, pure_apply, Node.bind, emit, setVars,
      getVars, Skip, Fail, ExpectNotToHaveOccurred, Node.pure, hproc, hres, hp,
      FrameworkSlot.setProcess, Item.processName]

theorem missing_path_skips_without_predicate_witness :
    (runItem failHard "/" hostWithMissingFile Vars.initial Item.i2_2_10).outcome =
      Outcome.skip ("/var/lib/kubelet/kubeconfig" ++ " does not exist") ∧
    (∀ f, (runItem failHard "/" hostWithMissingFile Vars.initial Item.i2_2_10).outcome ≠
      Outcome.fail f) ∧
    (runItem failHard "/" hostWithMissingFile Vars.initial Item.i2_2_10).trace =
      [Event.locate Item.i2_2_10.processName,
       Event.resolveFlag (some (sampleProcess "kubelet")) "config" ""] ∧
    (∀ q, Event.havePermissions q ∉
            (runItem failHard "/" hostWithMissingFile Vars.initial Item.i2_2_10).trace ∧
          Event.beOwnedBy q ∉
            (runItem failHard "/" hostWithMissingFile Vars.initial Item.i2_2_10).trace) :=
  missing_path_skips_without_predicate failHard "/" hostWithMissingFile Vars.initial
    Item.i2_2_10 (sampleProcess "kubelet") "config" "" "/var/lib/kubelet/kubeconfig"
    rfl (by decide) rfl (by decide)

/-- C5: for every missing-process policy and each of the ten items, when the
target process of the item is not running the outcome is exactly what the policy
decides (Skip with reason "process not found" under skip-on-absence, Fail under
fail-hard), and the run consists of the process lookup alone: no flag
resolution, no stat of the service directory, no walk and no file predicate,
whatever the host holds otherwise. -/
theorem missing_process_outcome_is_policy
    (missingProcessFunc : MissingProcessHandlerFunc) (cwd : String) (host : Host) (vars : Vars)
    (i : Item) (hproc : host.locate i.processName = Located.notFound) :
    (runItem missingProcessFunc cwd host vars i).outcome =
      (missingProcessFunc processNotFound).toOutcome ∧
    (runItem missingProcessFunc cwd host vars i).trace = [Event.locate i.processName] ∧
    (runItem skipOnAbsence cwd host vars i).outcome = Outcome.skip "process not found" ∧
    (runItem failHard cwd host vars i).outcome =
      Outcome.fail (Failure.message "process not found") ∧
    (∀ proc flag base path,
      Event.resolveFlag proc flag base ∉ (runItem missingProcessFunc cwd host vars i).trace ∧
      Event.stat path ∉ (runItem missingProcessFunc cwd host vars i).trace ∧
      Event.walk path ∉ (runItem missingProcessFunc cwd host vars i).trace ∧
      Event.havePermissions path ∉ (runItem missingProcessFunc cwd host vars i).trace ∧
      Event.beOwnedBy path ∉ (runItem missingProcessFunc cwd host vars i).trace) := by
  have key : ∀ mpf : MissingProcessHandlerFunc,
      (runItem mpf cwd host vars i).outcome = (mpf processNotFound).toOutcome ∧
      (runItem mpf cwd host vars i).trace = [Event.locate i.processName] := by
    intro mpf
    cases i <;> simp only [Item.processName] at hproc <;>
      cases hm : mpf processNotFound <;>
      simp [runItem, ConfigurationFiles, Spec.run, runNodes, frameworkBeforeEach,
        bind_apply, Node.bind, emit, Skip, Fail, hproc, hm, Abort.toOutcome, Item.processName]
  refine ⟨(key _).1, (key _).2, ?_, ?_, ?_⟩
  · simpa [skipOnAbsence, Abort.toOutcome, processNotFound] using (key skipOnAbsence).1
  · simpa [failHard, Abort.toOutcome, processNotFound] using (key failHard).1
  · intro proc flag base path
    simp [(key missingProcessFunc).2]

theorem missing_process_outcome_is_policy_witness :
    (runItem skipOnAbsence "/" hostWithoutProcesses Vars.initial Item.i2_2_3).outcome =
      (skipOnAbsence processNotFound).toOutcome ∧
    (runItem skipOnAbsence "/" hostWithoutProcesses Vars.initial Item.i2_2_3).trace =
      [Event.locate Item.i2_2_3.processName] ∧
    (runItem skipOnAbsence "/" hostWithoutProcesses Vars.initial Item.i2_2_3).outcome =
      Outcome.skip "process not found" ∧
    (runItem failHard "/" hostWithoutProcesses Vars.initial Item.i2_2_3).outcome =
      Outcome.fail (Failure.message "process not found") ∧
    (∀ proc flag base path,
      Event.resolveFlag proc flag base ∉
        (runItem skipOnAbsence "/" hostWithoutProcesses Vars.initial Item.i2_2_3).trace ∧
      Event.stat path ∉
        (runItem skipOnAbsence "/" hostWithoutProcesses Vars.initial Item.i2_2_3).trace ∧
      Event.walk path ∉
        (runItem skipOnAbsence "/" hostWithoutProcesses Vars.initial Item.i2_2_3).trace ∧
      Event.havePermissions path ∉
        (runItem skipOnAbsence "/" hostWithoutProcesses Vars.initial Item.i2_2_3).trace ∧
      Event.beOwnedBy path ∉
        (runItem skipOnAbsence "/" hostWithoutProcesses Vars.initial Item.i2_2_3).trace) :=
  missing_process_outcome_is_policy skipOnAbsence "/" hostWithoutProcesses Vars.initial
    Item.i2_2_3 (by decide)

/-- C4: lookup and IO errors are reported as failures, never as Skip or Pass.
(1) If the flag resolver returns a non-nil error, for any path and any value of
`exists`, the item fails with that error and nothing runs after the resolution.
(2) If the stat of the kubelet service directory fails with an error other than
not-exist, items 2.2.3 and 2.2.4 fail with that error and the walk never starts.
(3) If the walk hands its callback an entry with a non-nil error, items 2.2.3
and 2.2.4 fail (with that very error when every earlier call went through), and
the only entries whose file info is read or whose predicate is evaluated are
entries visited before it: neither happens for the erroring entry. -/
theorem lookup_errors_are_reported_failures
    (missingProcessFunc : MissingProcessHandlerFunc) (cwd : String) (host : Host) (vars : Vars)
    (i : Item) (proc : ProcessHandle) :
    (∀ (flag base p : String) (fileExists : Bool) (e : GoError),
      i.flagQuery cwd = some (flag, base) →
      host.locate i.processName = Located.found proc →
      host.FilePathFromFlag (some proc) flag base = (p, fileExists, some e) →
      (runItem missingProcessFunc cwd host vars i).outcome =
        Outcome.fail (Failure.unexpectedError e) ∧
      (runItem missingProcessFunc cwd host vars i).trace =
        [Event.locate i.processName, Event.resolveFlag (some proc) flag base]) ∧
    (∀ e : GoError,
      i = Item.i2_2_3 ∨ i = Item.i2_2_4 →
      host.locate "kubelet" = Located.found proc →
      host.stat kubeletServiceFileDir = Except.error e →
      e ≠ GoError.notExist →
      (runItem missingProcessFunc cwd host vars i).outcome =
        Outcome.fail (Failure.unexpectedError e) ∧
      (runItem missingProcessFunc cwd host vars i).trace =
        [Event.locate "kubelet", Event.stat kubeletServiceFileDir]) ∧
    (∀ (fi : FileInfo) (pre post : List WalkEntry) (path : String) (info : Option FileInfo)
        (e : GoError),
      i = Item.i2_2_3 ∨ i = Item.i2_2_4 →
      host.locate "kubelet" = Located.found proc →
      host.stat kubeletServiceFileDir = Except.ok fi →
      host.walk kubeletServiceFileDir = pre ++ WalkEntry.errored path info e :: post →
      (∃ f, (runItem missingProcessFunc cwd host vars i).outcome = Outcome.fail f) ∧
      (walkedWithoutError pre = true →
        (∀ p ∈ nonDirPaths pre,
          (if i = Item.i2_2_3 then permissionsOK host p else ownedByRoot host p) = true) →
        (runItem missingProcessFunc cwd host vars i).outcome =
          Outcome.fail (Failure.unexpectedError e)) ∧
      (∀ q, (Event.isDir q ∈ (runItem missingProcessFunc cwd host vars i).trace ∨
             Event.havePermissions q ∈ (runItem missingProcessFunc cwd host vars i).trace ∨
             Event.beOwnedBy q ∈ (runItem missingProcessFunc cwd host vars i).trace) →
        ∃ fi2, WalkEntry.visited q fi2 ∈ pre)) := by
  refine ⟨?_, ?_, ?_⟩
  · intro flag base p fileExists e hq hproc hres
    cases i <;>
      simp only [Item.flagQuery, Option.some.injEq, Prod.mk.injEq, reduceCtorEq] at hq <;>
      obtain ⟨rfl, rfl⟩ := hq <;>
      simp only [Item.processName] at hproc <;>
      simp [runItem, ConfigurationFiles, Spec.run, runNodes, frameworkBeforeEach,
        kubeletKubeconfigBeforeEach, proxyKubeconfigBeforeEach, clientCAFileBeforeEach,
        kubeletConfigBeforeEach, bind_apply, pure_apply, Node.bind, emit, setVars,
        getVars, Skip, Fail, ExpectNotToHaveOccurred, Node.pure, hproc, hres,
        FrameworkSlot.setProcess, Item.processName]
  · intro e hi hproc hstat hne
    have hnot : osIsNotExist (some e) = false := by
      cases e <;> simp [osIsNotExist] at hne ⊢
    rcases hi with rfl | rfl <;>
      simp [runItem, ConfigurationFiles, Spec.run, runNodes, frameworkBeforeEach,
        serviceFileDirBeforeEach, bind_apply, pure_apply, Node.bind, emit, setVars,
        Skip, Fail, ExpectNotToHaveOccurred, Node.pure, hproc, hstat, hnot]
  · intro fi pre post path info e hi hproc hstat hwalk
    rcases hi with rfl | rfl
    · obtain ⟨ho, ht⟩ := run_permissions_walk missingProcessFunc cwd host vars proc fi hproc hstat
      obtain ⟨⟨f, hf⟩, h2, h3⟩ := walkSummary_errored Event.havePermissions
        (permissionsFailure host) pre post path info e
      rw [hwalk] at ho ht
      refine ⟨⟨f, by rw [ho, hf]; rfl⟩, ?_, ?_⟩
      · intro hw hall
        have hnone : (walkSummary Event.havePermissions (permissionsFailure host) pre).1 = none := by
          rw [walkSummary_without_error _ _ _ hw, List.findSome?_eq_none_iff]
          intro p hp
          exact (permissionsFailure_eq_none host p).2 (by simpa using hall p hp)
        rw [ho, h2 hnone]; rfl
      · intro q hq
        rw [ht] at hq
        simp only [List.mem_append, List.mem_cons, reduceCtorEq, List.mem_nil_iff, or_false,
          false_or] at hq
        rcases hq with hq | hq | hq
        all_goals
          obtain ⟨q2, fi2, hm, hx⟩ := h3 _ hq
          rcases hx with hx | hx <;> cases hx <;> exact ⟨fi2, hm⟩
    · obtain ⟨ho, ht⟩ := run_ownership_walk missingProcessFunc cwd host vars proc fi hproc hstat
      obtain ⟨⟨f, hf⟩, h2, h3⟩ := walkSummary_errored Event.beOwnedBy
        (ownershipFailure host) pre post path info e
      rw [hwalk] at ho ht
      refine ⟨⟨f, by rw [ho, hf]; rfl⟩, ?_, ?_⟩
      · intro hw hall
        have hnone : (walkSummary Event.beOwnedBy (ownershipFailure host) pre).1 = none := by
          rw [walkSummary_without_error _ _ _ hw, List.findSome?_eq_none_iff]
          intro p hp
          exact (ownershipFailure_eq_none host p).2 (by simpa using hall p hp)
        rw [ho, h2 hnone]; rfl
      · intro q hq
        rw [ht] at hq
        simp only [List.mem_append, List.mem_cons, reduceCtorEq, List.mem_nil_iff, or_false,
          false_or] at hq
        rcases hq with hq | hq | hq
        all_goals
          obtain ⟨q2, fi2, hm, hx⟩ := h3 _ hq
          rcases hx with hx | hx <;> cases hx <;> exact ⟨fi2, hm⟩

theorem lookup_errors_are_reported_failures_witness :
    ((runItem skipOnAbsence "/" hostWithResolverError Vars.initial Item.i2_2_1).outcome =
        Outcome.fail (Failure.unexpectedError (GoError.other "permission denied")) ∧
      (runItem skipOnAbsence "/" hostWithResolverError Vars.initial Item.i2_2_1).trace =
        [Event.locate Item.i2_2_1.processName,
         Event.resolveFlag (some (sampleProcess "kubelet")) "kubeconfig" ""]) ∧
    ((runItem skipOnAbsence "/" hostWithUnreadableServiceDir Vars.initial Item.i2_2_3).outcome =
        Outcome.fail (Failure.unexpectedError (GoError.other "permission denied")) ∧
      (runItem skipOnAbsence "/" hostWithUnreadableServiceDir Vars.initial Item.i2_2_3).trace =
        [Event.locate "kubelet", Event.stat kubeletServiceFileDir]) ∧
    (runItem skipOnAbsence "/" hostWithWalkError Vars.initial Item.i2_2_3).outcome =
      Outcome.fail (Failure.unexpectedError (GoError.other "permission denied")) ∧
    (∀ q,
      (Event.isDir q ∈ (runItem skipOnAbsence "/" hostWithWalkError Vars.initial Item.i2_2_3).trace ∨
       Event.havePermissions q ∈
        (runItem skipOnAbsence "/" hostWithWalkError Vars.initial Item.i2_2_3).trace ∨
       Event.beOwnedBy q ∈
        (runItem skipOnAbsence "/" hostWithWalkError Vars.initial Item.i2_2_3).trace) →
      ∃ fi2, WalkEntry.visited q fi2 ∈
        [WalkEntry.visited kubeletServiceFileDir (dirInfo 0o755 0 0),
         WalkEntry.visited dropIn1 (rootFile 0o644)]) :=
  have hw := (lookup_errors_are_reported_failures skipOnAbsence "/" hostWithWalkError Vars.initial
    Item.i2_2_3 (sampleProcess "kubelet")).2.2 (dirInfo 0o755 0 0)
    [WalkEntry.visited kubeletServiceFileDir (dirInfo 0o755 0 0),
     WalkEntry.visited dropIn1 (rootFile 0o644)]
    [WalkEntry.visited dropIn2 (userFile 0o777 1000 1000)]
    "/etc/systemd/system/kubelet.service.d/15-broken.conf" none
    (GoError.other "permission denied") (Or.inl rfl) (by decide) rfl rfl
  ⟨(lookup_errors_are_reported_failures skipOnAbsence "/" hostWithResolverError Vars.initial
      Item.i2_2_1 (sampleProcess "kubelet")).1 "kubeconfig" "" "/etc/kubernetes/kubelet.conf"
      true (GoError.other "permission denied") rfl (by decide) rfl,
   (lookup_errors_are_reported_failures skipOnAbsence "/" hostWithUnreadableServiceDir
      Vars.initial Item.i2_2_3 (sampleProcess "kubelet")).2.1
      (GoError.other "permission denied") (Or.inl rfl) (by decide) rfl (by decide),
   hw.2.1 (by decide) (by decide),
   hw.2.2⟩

/-- C6, as stated, fails: on a service directory with two violating files
(both readable, both of mode above 0644 and both not owned by root:root), items
2.2.3 and 2.2.4 fail with a failure that names the first file only; the second
violating file is not named. -/
theorem walk_failure_does_not_name_all_violating_files :
    hostWithTwoViolations.locate "kubelet" = Located.found (sampleProcess "kubelet") ∧
    violatingFiles (permissionsAbove hostWithTwoViolations)
      (hostWithTwoViolations.walk kubeletServiceFileDir) = [dropIn1, dropIn2] ∧
    violatingFiles (notOwnedByRoot hostWithTwoViolations)
      (hostWithTwoViolations.walk kubeletServiceFileDir) = [dropIn1, dropIn2] ∧
    (runItem skipOnAbsence "/" hostWithTwoViolations Vars.initial Item.i2_2_3).outcome =
      Outcome.fail (Failure.permissions dropIn1 0o666 0o644) ∧
    (runItem skipOnAbsence "/" hostWithTwoViolations Vars.initial Item.i2_2_4).outcome =
      Outcome.fail (Failure.ownership dropIn1 1000 1000) ∧
    ¬ (∀ p ∈ violatingFiles (permissionsAbove hostWithTwoViolations)
          (hostWithTwoViolations.walk kubeletServiceFileDir),
        p ∈ (runItem skipOnAbsence "/" hostWithTwoViolations Vars.initial
          Item.i2_2_3).outcome.namedFiles) ∧
    ¬ (∀ p ∈ violatingFiles (notOwnedByRoot hostWithTwoViolations)
          (hostWithTwoViolations.walk kubeletServiceFileDir),
        p ∈ (runItem skipOnAbsence "/" hostWithTwoViolations Vars.initial
          Item.i2_2_4).outcome.namedFiles) := by
  decide

/-- C6, amended: when kubelet is found, the service directory is present, the
walk meets no error and every non-directory entry can be read, a tree with at
least one non-directory file violating the predicate (permission bits above
0644 for item 2.2.3, owner other than root:root for item 2.2.4) makes the item
fail, and the failure names exactly one file, the first violating file in walk
order (parts 1 and 3).  The walk stops there (parts 2 and 4): if the walk is
`pre`, then the first violating file `p`, then `post`, the trace of the item is
the process lookup, the stat of the directory, the start of the walk, the calls
for the entries of `pre`, and the call for `p`; no entry of `post` is read or
judged. -/
theorem walk_failure_names_first_violating_file
    (missingProcessFunc : MissingProcessHandlerFunc) (cwd : String) (host : Host) (vars : Vars)
    (proc : ProcessHandle) (fi : FileInfo)
    (hproc : host.locate "kubelet" = Located.found proc)
    (hstat : host.stat kubeletServiceFileDir = Except.ok fi)
    (hwalk : walkedWithoutError (host.walk kubeletServiceFileDir) = true)
    (hread : ∀ q ∈ nonDirPaths (host.walk kubeletServiceFileDir),
      ∃ fq, host.stat q = Except.ok fq) :
    (violatingFiles (permissionsAbove host) (host.walk kubeletServiceFileDir) ≠ [] →
      ∃ f, (runItem missingProcessFunc cwd host vars Item.i2_2_3).outcome = Outcome.fail f ∧
        f.namedFiles =
          (violatingFiles (permissionsAbove host) (host.walk kubeletServiceFileDir)).take 1) ∧
    (∀ (pre post : List WalkEntry) (p : String) (info : FileInfo),
      host.walk kubeletServiceFileDir = pre ++ WalkEntry.visited p info :: post →
      info.isDir = false →
      permissionsAbove host p = true →
      (∀ q ∈ nonDirPaths pre, permissionsAbove host q = false) →
      (∃ f, (runItem missingProcessFunc cwd host vars Item.i2_2_3).outcome = Outcome.fail f ∧
        f.namedFiles = [p]) ∧
      (runItem missingProcessFunc cwd host vars Item.i2_2_3).trace =
        [Event.locate "kubelet", Event.stat kubeletServiceFileDir,
         Event.walk kubeletServiceFileDir] ++ callsEvents Event.havePermissions pre ++
        [Event.isDir p, Event.havePermissions p]) ∧
    (violatingFiles (notOwnedByRoot host) (host.walk kubeletServiceFileDir) ≠ [] →
      ∃ f, (runItem missingProcessFunc cwd host vars Item.i2_2_4).outcome = Outcome.fail f ∧
        f.namedFiles =
          (violatingFiles (notOwnedByRoot host) (host.walk kubeletServiceFileDir)).take 1) ∧
    (∀ (pre post : List WalkEntry) (p : String) (info : FileInfo),
      host.walk kubeletServiceFileDir = pre ++ WalkEntry.visited p info :: post →
      info.isDir = false →
      notOwnedByRoot host p = true →
      (∀ q ∈ nonDirPaths pre, notOwnedByRoot host q = false) →
      (∃ f, (runItem missingProcessFunc cwd host vars Item.i2_2_4).outcome = Outcome.fail f ∧
        f.namedFiles = [p]) ∧
      (runItem missingProcessFunc cwd host vars Item.i2_2_4).trace =
        [Event.locate "kubelet", Event.stat kubeletServiceFileDir,
         Event.walk kubeletServiceFileDir] ++ callsEvents Event.beOwnedBy pre ++
        [Event.isDir p, Event.beOwnedBy p]) := by
  have hcp : ∀ q ∈ nonDirPaths (host.walk kubeletServiceFileDir),
      permissionsOK host q = !permissionsAbove host q := by
    intro q hq
    obtain ⟨fq, hfq⟩ := hread q hq
    exact permissionsOK_eq_not_above host q fq hfq
  have hco : ∀ uid gid, host.lookupUser "root" = some uid → host.lookupGroup "root" = some gid →
      ∀ q ∈ nonDirPaths (host.walk kubeletServiceFileDir),
        ownedByRoot host q = !notOwnedByRoot host q := by
    intro uid gid hu hg q hq
    obtain ⟨fq, hfq⟩ := hread q hq
    exact ownedByRoot_eq_not_notOwned host q fq uid gid hu hg hfq
  obtain ⟨hpo, hpt⟩ := run_permissions_walk missingProcessFunc cwd host vars proc fi hproc hstat
  obtain ⟨hoo, hot⟩ := run_ownership_walk missingProcessFunc cwd host vars proc fi hproc hstat
  refine ⟨?_, ?_, ?_, ?_⟩
  · intro hne
    have hp := findSome_names_first (permissionsFailure host) (permissionsOK host)
      (permissionsFailure_eq_none host) (permissionsFailure_names host)
      (nonDirPaths (host.walk kubeletServiceFileDir))
    have hfil : violatingFiles (permissionsAbove host) (host.walk kubeletServiceFileDir) =
        (nonDirPaths (host.walk kubeletServiceFileDir)).filter
          (fun p => !permissionsOK host p) := by
      unfold violatingFiles
      apply List.filter_congr
      intro q hq
      rw [hcp q hq]; simp
    rw [← walkSummary_without_error Event.havePermissions _ _ hwalk, ← hpo, ← hfil] at hp
    obtain ⟨f, hf⟩ := hp.2.2 hne
    refine ⟨f, hf, ?_⟩
    have h1 := hp.1
    rw [hf] at h1
    exact h1
  · intro pre post p info hsplit hd hv hnone
    obtain ⟨f, hf, hn⟩ := first_violating_call_fails (permissionsFailure host)
      (permissionsAbove host) (permissionsOK host) _ pre post p info
      (permissionsFailure_eq_none host) (permissionsFailure_names host) hcp hsplit hd hv
    have hpre := calls_pass_before_first (permissionsFailure host)
      (permissionsAbove host) (permissionsOK host) _ pre post _
      (permissionsFailure_eq_none host) hcp hwalk hsplit hnone
    have hs := walkSummary_stops Event.havePermissions (permissionsFailure host) pre post
      _ f hpre hf
    rw [hsplit] at hpo hpt
    rw [hs] at hpo hpt
    refine ⟨⟨f, hpo, hn⟩, ?_⟩
    rw [hpt]
    simp [callEvents, hd]
  · intro hne
    obtain ⟨q0, hq0⟩ := List.exists_mem_of_ne_nil _ hne
    have hq0v : notOwnedByRoot host q0 = true := by
      unfold violatingFiles at hq0
      exact (List.mem_filter.1 hq0).2
    obtain ⟨uid, gid, hu, hg⟩ := notOwnedByRoot_resolves host q0 hq0v
    have ho := findSome_names_first (ownershipFailure host) (ownedByRoot host)
      (ownershipFailure_eq_none host) (ownershipFailure_names host)
      (nonDirPaths (host.walk kubeletServiceFileDir))
    have hfil : violatingFiles (notOwnedByRoot host) (host.walk kubeletServiceFileDir) =
        (nonDirPaths (host.walk kubeletServiceFileDir)).filter
          (fun p => !ownedByRoot host p) := by
      unfold violatingFiles
      apply List.filter_congr
      intro q hq
      rw [hco uid gid hu hg q hq]; simp
    rw [← walkSummary_without_error Event.beOwnedBy _ _ hwalk, ← hoo, ← hfil] at ho
    obtain ⟨f, hf⟩ := ho.2.2 hne
    refine ⟨f, hf, ?_⟩
    have h1 := ho.1
    rw [hf] at h1
    exact h1
  · intro pre post p info hsplit hd hv hnone
    obtain ⟨uid, gid, hu, hg⟩ := notOwnedByRoot_resolves host p hv
    obtain ⟨f, hf, hn⟩ := first_violating_call_fails (ownershipFailure host)
      (notOwnedByRoot host) (ownedByRoot host) _ pre post p info
      (ownershipFailure_eq_none host) (ownershipFailure_names host) (hco uid gid hu hg)
      hsplit hd hv
    have hpre := calls_pass_before_first (ownershipFailure host)
      (notOwnedByRoot host) (ownedByRoot host) _ pre post _
      (ownershipFailure_eq_none host) (hco uid gid hu hg) hwalk hsplit hnone
    have hs := walkSummary_stops Event.beOwnedBy (ownershipFailure host) pre post
      _ f hpre hf
    rw [hsplit] at hoo hot
    rw [hs] at hoo hot
    refine ⟨⟨f, hoo, hn⟩, ?_⟩
    rw [hot]
    simp [callEvents, hd]

theorem walk_failure_names_first_violating_file_witness :
    (∃ f, (runItem failHard "/" hostWithTwoViolations Vars.initial Item.i2_2_3).outcome =
        Outcome.fail f ∧
      f.namedFiles = (violatingFiles (permissionsAbove hostWithTwoViolations)
        (hostWithTwoViolations.walk kubeletServiceFileDir)).take 1) ∧
    ((∃ f, (runItem failHard "/" hostWithTwoViolations Vars.initial Item.i2_2_3).outcome =
        Outcome.fail f ∧ f.namedFiles = [dropIn1]) ∧
      (runItem failHard "/" hostWithTwoViolations Vars.initial Item.i2_2_3).trace =
        [Event.locate "kubelet", Event.stat kubeletServiceFileDir,
         Event.walk kubeletServiceFileDir, Event.isDir kubeletServiceFileDir,
         Event.isDir dropIn1, Event.havePermissions dropIn1]) ∧
    (∃ f, (runItem failHard "/" hostWithTwoViolations Vars.initial Item.i2_2_4).outcome =
        Outcome.fail f ∧
      f.namedFiles = (violatingFiles (notOwnedByRoot hostWithTwoViolations)
        (hostWithTwoViolations.walk kubeletServiceFileDir)).take 1) ∧
    ((∃ f, (runItem failHard "/" hostWithTwoViolations Vars.initial Item.i2_2_4).outcome =
        Outcome.fail f ∧ f.namedFiles = [dropIn1]) ∧
      (runItem failHard "/" hostWithTwoViolations Vars.initial Item.i2_2_4).trace =
        [Event.locate "kubelet", Event.stat kubeletServiceFileDir,
         Event.walk kubeletServiceFileDir, Event.isDir kubeletServiceFileDir,
         Event.isDir dropIn1, Event.beOwnedBy dropIn1]) :=
  have h := walk_failure_names_first_violating_file failHard "/" hostWithTwoViolations
    Vars.initial (sampleProcess "kubelet") (dirInfo 0o755 0 0) (by decide) rfl (by decide)
    (fun q hq => by
      have hq2 : q = dropIn1 ∨ q = dropIn2 := by
        simpa [hostWithTwoViolations, sampleHost, nonDirPaths, dirInfo, userFile] using hq
      rcases hq2 with rfl | rfl
      · exact ⟨userFile 0o666 1000 1000, rfl⟩
      · exact ⟨userFile 0o777 1000 1000, rfl⟩)
  ⟨h.1 (by decide),
   h.2.1 [WalkEntry.visited kubeletServiceFileDir (dirInfo 0o755 0 0)]
     [WalkEntry.visited dropIn2 (userFile 0o777 1000 1000)] dropIn1 (userFile 0o666 1000 1000)
     rfl rfl (by decide) (by decide),
   h.2.2.1 (by decide),
   h.2.2.2 [WalkEntry.visited kubeletServiceFileDir (dirInfo 0o755 0 0)]
     [WalkEntry.visited dropIn2 (userFile 0o777 1000 1000)] dropIn1 (userFile 0o666 1000 1000)
     rfl rfl (by decide) (by decide)⟩

/-- C7: when kubelet is found, the service directory is present and the walk
meets no error, item 2.2.3 passes iff every non-directory entry has permission
bits at most 0644, and item 2.2.4 passes iff every non-directory entry is owned
by root:root.  Directory entries are skipped: any second host whose walk has
the same non-directory paths and which agrees on the metadata of those paths
and on the ids of root gives the same outcomes, whatever the presence, mode or
owner of its directory entries (the root directory included). -/
theorem walk_items_judge_non_directory_entries_only
    (missingProcessFunc : MissingProcessHandlerFunc) (cwd : String) (host : Host) (vars : Vars)
    (proc : ProcessHandle) (fi : FileInfo)
    (hproc : host.locate "kubelet" = Located.found proc)
    (hstat : host.stat kubeletServiceFileDir = Except.ok fi)
    (hwalk : walkedWithoutError (host.walk kubeletServiceFileDir) = true) :
    ((runItem missingProcessFunc cwd host vars Item.i2_2_3).outcome = Outcome.pass ↔
      ∀ path info, WalkEntry.visited path info ∈ host.walk kubeletServiceFileDir →
        info.isDir = false → permissionsOK host path = true) ∧
    ((runItem missingProcessFunc cwd host vars Item.i2_2_4).outcome = Outcome.pass ↔
      ∀ path info, WalkEntry.visited path info ∈ host.walk kubeletServiceFileDir →
        info.isDir = false → ownedByRoot host path = true) ∧
    (∀ (host2 : Host) (vars2 : Vars) (proc2 : ProcessHandle) (fi2 : FileInfo),
      host2.locate "kubelet" = Located.found proc2 →
      host2.stat kubeletServiceFileDir = Except.ok fi2 →
      walkedWithoutError (host2.walk kubeletServiceFileDir) = true →
      nonDirPaths (host2.walk kubeletServiceFileDir) =
        nonDirPaths (host.walk kubeletServiceFileDir) →
      (∀ p ∈ nonDirPaths (host.walk kubeletServiceFileDir), host2.stat p = host.stat p) →
      host2.lookupUser "root" = host.lookupUser "root" →
      host2.lookupGroup "root" = host.lookupGroup "root" →
      (runItem missingProcessFunc cwd host2 vars2 Item.i2_2_3).outcome =
        (runItem missingProcessFunc cwd host vars Item.i2_2_3).outcome ∧
      (runItem missingProcessFunc cwd host2 vars2 Item.i2_2_4).outcome =
        (runItem missingProcessFunc cwd host vars Item.i2_2_4).outcome) := by
  have hp := findSome_names_first (permissionsFailure host) (permissionsOK host)
    (permissionsFailure_eq_none host) (permissionsFailure_names host)
    (nonDirPaths (host.walk kubeletServiceFileDir))
  have ho := findSome_names_first (ownershipFailure host) (ownedByRoot host)
    (ownershipFailure_eq_none host) (ownershipFailure_names host)
    (nonDirPaths (host.walk kubeletServiceFileDir))
  have h3 := (run_permissions_walk missingProcessFunc cwd host vars proc fi hproc hstat).1
  have h4 := (run_ownership_walk missingProcessFunc cwd host vars proc fi hproc hstat).1
  rw [walkSummary_without_error Event.havePermissions _ _ hwalk] at h3
  rw [walkSummary_without_error Event.beOwnedBy _ _ hwalk] at h4
  refine ⟨?_, ?_, ?_⟩
  · rw [h3, hp.2.1]
    constructor
    · intro h path info hmem hd
      exact h path ((mem_nonDirPaths _ _).2 ⟨info, hmem, hd⟩)
    · intro h p hpm
      obtain ⟨info, hmem, hd⟩ := (mem_nonDirPaths _ _).1 hpm
      exact h p info hmem hd
  · rw [h4, ho.2.1]
    constructor
    · intro h path info hmem hd
      exact h path ((mem_nonDirPaths _ _).2 ⟨info, hmem, hd⟩)
    · intro h p hpm
      obtain ⟨info, hmem, hd⟩ := (mem_nonDirPaths _ _).1 hpm
      exact h p info hmem hd
  · intro host2 vars2 proc2 fi2 hproc2 hstat2 hwalk2 hpaths hstats hu hg
    have h5 := (run_permissions_walk missingProcessFunc cwd host2 vars2 proc2 fi2 hproc2 hstat2).1
    have h6 := (run_ownership_walk missingProcessFunc cwd host2 vars2 proc2 fi2 hproc2 hstat2).1
    rw [walkSummary_without_error Event.havePermissions _ _ hwalk2, hpaths] at h5
    rw [walkSummary_without_error Event.beOwnedBy _ _ hwalk2, hpaths] at h6
    rw [h3, h4, h5, h6]
    constructor
    · congr 1
      apply findSome_agree
      intro p hpm
      simp [permissionsFailure, hstats p hpm]
    · congr 1
      apply findSome_agree
      intro p hpm
      simp [ownershipFailure, CheckOwnership, hstats p hpm, hu, hg]

theorem walk_items_judge_non_directory_entries_only_witness :
    ((runItem skipOnAbsence "/" (hostWithServiceDir 0o755 0 0) Vars.initial Item.i2_2_3).outcome =
        Outcome.pass ↔
      ∀ path info,
        WalkEntry.visited path info ∈ (hostWithServiceDir 0o755 0 0).walk kubeletServiceFileDir →
        info.isDir = false → permissionsOK (hostWithServiceDir 0o755 0 0) path = true) ∧
    ((runItem skipOnAbsence "/" (hostWithServiceDir 0o755 0 0) Vars.initial Item.i2_2_4).outcome =
        Outcome.pass ↔
      ∀ path info,
        WalkEntry.visited path info ∈ (hostWithServiceDir 0o755 0 0).walk kubeletServiceFileDir →
        info.isDir = false → ownedByRoot (hostWithServiceDir 0o755 0 0) path = true) ∧
    (runItem skipOnAbsence "/" (hostWithServiceDir 0o777 1000 1000) Vars.initial
        Item.i2_2_3).outcome =
      (runItem skipOnAbsence "/" (hostWithServiceDir 0o755 0 0) Vars.initial
        Item.i2_2_3).outcome ∧
    (runItem skipOnAbsence "/" (hostWithServiceDir 0o777 1000 1000) Vars.initial
        Item.i2_2_4).outcome =
      (runItem skipOnAbsence "/" (hostWithServiceDir 0o755 0 0) Vars.initial
        Item.i2_2_4).outcome :=
  have h := walk_items_judge_non_directory_entries_only skipOnAbsence "/"
    (hostWithServiceDir 0o755 0 0) Vars.initial (sampleProcess "kubelet") (dirInfo 0o755 0 0)
    (by decide) rfl (by decide)
  ⟨h.1, h.2.1,
   h.2.2 (hostWithServiceDir 0o777 1000 1000) Vars.initial (sampleProcess "kubelet")
     (dirInfo 0o777 1000 1000) (by decide) rfl (by decide) (by decide)
     (fun p hp => by
       have hp2 : p = dropIn1 := by simpa [hostWithServiceDir, sampleHost, nonDirPaths, dirInfo,
         rootFile] using hp
       subst hp2
       rfl)
     rfl rfl⟩

/-- C8: for items 2.2.9 and 2.2.10, when kubelet is found and the flag resolver
returns the empty path with no error, for either value of `exists`, the outcome
is Skip with the reason "--config is not set"; that reason differs from
`p ++ " does not exist"` for every `p`, and so from the outcome of the same item
on any host where the flag is set to a missing non-empty path. -/
theorem config_flag_unset_skips_with_distinct_reason
    (missingProcessFunc : MissingProcessHandlerFunc) (cwd : String) (host : Host) (vars : Vars)
    (i : Item) (proc : ProcessHandle) (fileExists : Bool)
    (hi : i = Item.i2_2_9 ∨ i = Item.i2_2_10)
    (hproc : host.locate "kubelet" = Located.found proc)
    (hres : host.FilePathFromFlag (some proc) "config" "" = ("", fileExists, none)) :
    (runItem missingProcessFunc cwd host vars i).outcome = Outcome.skip "--config is not set" ∧
    (∀ p : String, "--config is not set" ≠ p ++ " does not exist") ∧
    (∀ (host2 : Host) (vars2 : Vars) (proc2 : ProcessHandle) (p : String),
      host2.locate "kubelet" = Located.found proc2 →
      host2.FilePathFromFlag (some proc2) "config" "" = (p, false, none) →
      p ≠ "" →
      (runItem missingProcessFunc cwd host2 vars2 i).outcome =
          Outcome.skip (p ++ " does not exist") ∧
      (runItem missingProcessFunc cwd host2 vars2 i).outcome ≠
          (runItem missingProcessFunc cwd host vars i).outcome) := by
  have h1 : (runItem missingProcessFunc cwd host vars i).outcome =
      Outcome.skip "--config is not set" := by
    rcases hi with rfl | rfl <;>
      simp [runItem, ConfigurationFiles, Spec.run, runNodes, frameworkBeforeEach,
        kubeletConfigBeforeEach, bind_apply, pure_apply, Node.bind, emit, setVars,
        getVars, Skip, Fail, ExpectNotToHaveOccurred, Node.pure, hproc, hres,
        FrameworkSlot.setProcess]
  refine ⟨h1, not_set_ne_does_not_exist, ?_⟩
  intro host2 vars2 proc2 p hproc2 hres2 hp
  have h2 : (runItem missingProcessFunc cwd host2 vars2 i).outcome =
      Outcome.skip (p ++ " does not exist") := by
    rcases hi with rfl | rfl <;>
      simp [runItem, ConfigurationFiles, Spec.run, runNodes, frameworkBeforeEach,
        kubeletConfigBeforeEach, bind_apply, pure_apply, Node.bind, emit, setVars,
        getVars, Skip, Fail, ExpectNotToHaveOccurred, Node.pure, hproc2, hres2, hp,
        FrameworkSlot.setProcess]
  refine ⟨h2, ?_⟩
  rw [h1, h2]
  intro h
  exact not_set_ne_does_not_exist p (Outcome.skip.inj h).symm

theorem config_flag_unset_skips_with_distinct_reason_witness :
    (runItem failHard "/" hostWithFlagUnsetExisting Vars.initial Item.i2_2_9).outcome =
      Outcome.skip "--config is not set" ∧
    (runItem failHard "/" hostWithMissingFile Vars.initial Item.i2_2_9).outcome =
      Outcome.skip ("/var/lib/kubelet/kubeconfig" ++ " does not exist") ∧
    (runItem failHard "/" hostWithMissingFile Vars.initial Item.i2_2_9).outcome ≠
      (runItem failHard "/" hostWithFlagUnsetExisting Vars.initial Item.i2_2_9).outcome :=
  have h := config_flag_unset_skips_with_distinct_reason failHard "/" hostWithFlagUnsetExisting
    Vars.initial Item.i2_2_9 (sampleProcess "kubelet") true (Or.inl rfl) (by decide) rfl
  ⟨h.1, h.2.2 hostWithMissingFile Vars.initial (sampleProcess "kubelet")
      "/var/lib/kubelet/kubeconfig" (by decide) rfl (by decide)⟩

/-- C9: with the flag not set (the resolver returns the empty path,
`exists = false`, no error), items 2.2.1, 2.2.2 and 2.2.5 to 2.2.8 skip with the
reason `"" ++ " does not exist"`, which is of the file-missing form with the
empty path; only the `--config` items 2.2.9 and 2.2.10 give a flag-not-set
reason. -/
theorem unset_flag_reported_as_missing_file :
    hostWithFlagUnset.FilePathFromFlag (some (sampleProcess "kubelet")) "kubeconfig" "" =
      ("", false, none) ∧
    (∀ i ∈ [Item.i2_2_1, Item.i2_2_2, Item.i2_2_5, Item.i2_2_6, Item.i2_2_7, Item.i2_2_8],
      (runItem skipOnAbsence "/" hostWithFlagUnset Vars.initial i).outcome =
        Outcome.skip ("" ++ " does not exist")) ∧
    (∀ i ∈ [Item.i2_2_9, Item.i2_2_10],
      (runItem skipOnAbsence "/" hostWithFlagUnset Vars.initial i).outcome =
        Outcome.skip "--config is not set") := by
  refine ⟨rfl, ?_, ?_⟩ <;> decide

/-- C10: the outcome and the trace of an item do not depend on the shared
variables earlier runs left behind: (1) one item on one host gives the same
outcome and trace from any two values of the variables; (2) in any sequence of
item runs, each on its own host state, every report equals the report of the
item run alone from the initial variables; (3) whenever a flag-driven item
evaluates a file predicate on a path, that path is the one the flag resolver
returned in this very run, with no error and `exists = true`, and it is
non-empty in the `--config` group. -/
theorem item_outcome_independent_of_earlier_runs
    (missingProcessFunc : MissingProcessHandlerFunc) (cwd : String) :
    (∀ (host : Host) (v w : Vars) (i : Item),
      (runItem missingProcessFunc cwd host v i).outcome =
        (runItem missingProcessFunc cwd host w i).outcome ∧
      (runItem missingProcessFunc cwd host v i).trace =
        (runItem missingProcessFunc cwd host w i).trace) ∧
    (∀ (runs : List (Item × Host)) (v0 : Vars),
      (runSequence missingProcessFunc cwd runs v0).map (fun r => (r.outcome, r.trace)) =
        runs.map (fun ih =>
          ((runItem missingProcessFunc cwd ih.2 Vars.initial ih.1).outcome,
           (runItem missingProcessFunc cwd ih.2 Vars.initial ih.1).trace))) ∧
    (∀ (host : Host) (v : Vars) (i : Item) (flag base q : String),
      i.flagQuery cwd = some (flag, base) →
      (Event.havePermissions q ∈ (runItem missingProcessFunc cwd host v i).trace ∨
        Event.beOwnedBy q ∈ (runItem missingProcessFunc cwd host v i).trace) →
      ∃ proc, host.locate i.processName = Located.found proc ∧
        host.FilePathFromFlag (some proc) flag base = (q, true, none) ∧
        (flag = "config" → q ≠ "")) :=
  ⟨runItem_vars_irrelevant missingProcessFunc cwd,
   runSequence_eq_alone missingProcessFunc cwd,
   predicate_path_is_resolved_path missingProcessFunc cwd⟩

theorem item_outcome_independent_of_earlier_runs_witness :
    ((runSequence skipOnAbsence "/" sampleRuns Vars.initial).map
        (fun r => (r.outcome, r.trace)) =
      sampleRuns.map (fun ih =>
        ((runItem skipOnAbsence "/" ih.2 Vars.initial ih.1).outcome,
         (runItem skipOnAbsence "/" ih.2 Vars.initial ih.1).trace))) ∧
    (∃ proc, (hostWithKubeconfig 0o600).locate Item.i2_2_1.processName = Located.found proc ∧
      (hostWithKubeconfig 0o600).FilePathFromFlag (some proc) "kubeconfig" "" =
        ("/etc/kubernetes/kubelet.conf", true, none) ∧
      ("kubeconfig" = "config" → "/etc/kubernetes/kubelet.conf" ≠ "")) :=
  ⟨(item_outcome_independent_of_earlier_runs skipOnAbsence "/").2.1 sampleRuns Vars.initial,
   (item_outcome_independent_of_earlier_runs skipOnAbsence "/").2.2 (hostWithKubeconfig 0o600)
     Vars.initial Item.i2_2_1 "kubeconfig" "" "/etc/kubernetes/kubelet.conf" rfl
     (Or.inl (by decide))⟩

end KSB
